import Mathlib

/-
Verification development for the microbanking interest subsystem.

Shallow embedding of `src/unnamed/part_000` (the interest processing
service, exporting `processDailyFDInterest` and
`processDailySavingsInterest`) and of
`src/schedulers/interestScheduler.js` (`startInterestSchedulers`).

Modelling conventions:
- Monetary amounts (the SQL numeric `interest_amount`, `interest_rate`,
  principal totals) are rationals (`Rat`).
- Instants are naturals: milliseconds since the Unix epoch (the value of
  the JS `new Date()` used as `today`).  The JS expression
  `today.toISOString().split('T')[0]` extracts the UTC calendar date of
  that instant; it is modelled by `utcDate` (days since the epoch).
- The database and the node-postgres client are the external
  collaborators the spec documents.  Each query the service issues is
  modelled by an oracle carried in the run environment: the due-items
  query may fail or return rows, each per-item posting call and each
  per-item audit-record INSERT independently succeeds or throws (indexed
  by the item's position in the due list), the maturity sweep may fail,
  and COMMIT may fail.  A thrown query error is a JS exception, modelled
  by the control flow below exactly as the try/catch structure of the
  source dictates.
- Transactionality: writes made between BEGIN and COMMIT are pending;
  they become the run's `committed` records only if COMMIT succeeds,
  otherwise ROLLBACK leaves the committed set empty.
- Each run also produces a trace of the external calls it performed
  (due-items query with its date argument, posting attempts with their
  arguments, successful record inserts, the maturity sweep call, and the
  final COMMIT/ROLLBACK), so that claims about which calls are made, in
  which order and with which arguments, are statable.
-/

namespace Microbanking

/-- Outcome status stored in an interest calculation row:
the source inserts the literal `'credited'` or `'failed'`. -/
inductive RecStatus where
  | credited
  | failed
deriving Repr, DecidableEq

/-- One row of `calculate_fd_interest_due($1::DATE)` as the FD loop reads
it: `fd_id`, `interest_amount`, `interest_rate`, `days_in_period`,
`linked_account_id`. -/
structure FDCalc where
  fd_id : Nat
  interest_amount : Rat
  interest_rate : Rat
  days_in_period : Nat
  linked_account_id : Nat
deriving Repr, DecidableEq

/-- One row of `calculate_savings_interest_due($1::DATE)` as the savings
loop reads it: `account_id`, `interest_amount`, `interest_rate`,
`plan_type`. -/
structure SavCalc where
  account_id : Nat
  interest_amount : Rat
  interest_rate : Rat
  plan_type : String
deriving Repr, DecidableEq

/-- A row of `fd_interest_calculations` as inserted by the service
(columns of the two INSERT statements of the FD loop). -/
structure FDRecord where
  fd_id : Nat
  calculation_date : Nat
  interest_amount : Rat
  days_in_period : Nat
  credited_to_account_id : Nat
  status : RecStatus
  credited_at : Option Nat
deriving Repr, DecidableEq

/-- A row of `savings_interest_calculations` as inserted by the service
(columns of the two INSERT statements of the savings loop). -/
structure SavRecord where
  account_id : Nat
  calculation_date : Nat
  interest_amount : Rat
  interest_rate : Rat
  plan_type : String
  status : RecStatus
  credited_at : Option Nat
deriving Repr, DecidableEq

/-- Row returned by `process_matured_fixed_deposits()`. -/
structure MaturitySummary where
  processed_count : Nat
  total_principal_returned : Rat
deriving Repr, DecidableEq

/-- External calls a run performs, in order.  `ρ` is the audit-record row
type of the kind being processed.  `insertRec` is emitted for an INSERT
that succeeded; a failed INSERT attempt raises and leaves no event. -/
inductive BatchEvent (ρ : Type) where
  | computeDueCall (date : Nat)
  | post (accountId : Nat) (amount : Rat) (memo : String) (actorId : Nat)
  | insertRec (r : ρ)
  | sweepCall
  | commit
  | rollback
deriving Repr, DecidableEq

/-- Exit state of the per-item loop: completed with the final
`creditedCount` and `totalInterest` accumulators, or aborted by an
uncaught exception (a failed audit-record INSERT inside the catch
handler, which nothing catches before the outer handler). -/
inductive LoopExit where
  | done (creditedCount : Nat) (totalInterest : Rat)
  | aborted (msg : String)
deriving Repr, DecidableEq

/-- UTC calendar date (days since epoch) of an instant in milliseconds:
model of `today.toISOString().split('T')[0]`. -/
def utcDate (ms : Nat) : Nat := ms / 86400000

/-- Model of `parseInt(process.env.SYSTEM_ACTOR_EMPLOYEE_ID || '1', 10)`:
the configured actor id when present, else the hardcoded fallback `1`. -/
def systemActorId (cfg : Option Nat) : Nat := cfg.getD 1

/-- Memo string of the FD posting call:
`` `Monthly FD Interest - [rate]% Plan` ``. -/
def fdMemo (rate : Rat) : String :=
  "Monthly FD Interest - " ++ toString rate ++ "% Plan"

/-- Memo string of the savings posting call:
`` `Monthly Savings Interest - [plan] Plan` ``. -/
def savMemo (plan : String) : String :=
  "Monthly Savings Interest - " ++ plan ++ " Plan"

/-- Loop output: exit state, pending audit rows written so far (in
processing order), trace of external calls made so far. -/
abbrev LoopOut (ρ : Type) := LoopExit × List ρ × List (BatchEvent ρ)

/-- `creditedCount++; totalInterest += amount` folded over a loop exit. -/
def addCredit (ex : LoopExit) (a : Rat) : LoopExit :=
  match ex with
  | .done n t => .done (n + 1) (t + a)
  | .aborted m => .aborted m

/-- Prepend one item's successful-but-not-credited contribution (its
pending row and its events) to the rest of the loop's output. -/
def pushItem (r : ρ) (evs : List (BatchEvent ρ)) (o : LoopOut ρ) : LoopOut ρ :=
  match o with
  | (ex, rs, tr) => (ex, r :: rs, evs ++ tr)

/-- Prepend one credited item's contribution: its pending row, its
events, and its increments of the two accumulators. -/
def pushCredit (a : Rat) (r : ρ) (evs : List (BatchEvent ρ)) (o : LoopOut ρ) : LoopOut ρ :=
  match o with
  | (ex, rs, tr) => (addCredit ex a, r :: rs, evs ++ tr)

/-- Row written for an FD item, from the two INSERT statements: credited
(`status='credited'`, `credited_at=$6` = `today`) or failed
(`status='failed'`, no `credited_at`); the other columns
`(fd_id, calculation_date, interest_amount, days_in_period,
credited_to_account_id)` are identical in both statements. -/
def fdMkRecord (pd today : Nat) (credited : Bool) (c : FDCalc) : FDRecord :=
  { fd_id := c.fd_id
    calculation_date := pd
    interest_amount := c.interest_amount
    days_in_period := c.days_in_period
    credited_to_account_id := c.linked_account_id
    status := if credited then .credited else .failed
    credited_at := if credited then some today else none }

/-- Row written for a savings item, from the two INSERT statements of the
savings loop. -/
def savMkRecord (pd today : Nat) (credited : Bool) (c : SavCalc) : SavRecord :=
  { account_id := c.account_id
    calculation_date := pd
    interest_amount := c.interest_amount
    interest_rate := c.interest_rate
    plan_type := c.plan_type
    status := if credited then .credited else .failed
    credited_at := if credited then some today else none }

/-- The FD per-item loop (`for (const calc of interestCalculations.rows)`),
item at list position `i`:
- `calc.interest_amount > 0` guards the whole item body;
- the try block posts `create_transaction_with_validation('Interest',
  amount, memo, linked_account_id, systemActorId)` then inserts the
  credited row and bumps the accumulators;
- any failure of the posting call or of the credited-row INSERT lands in
  the catch handler, which inserts the failed row;
- a failure of that failed-row INSERT is uncaught: the loop aborts. -/
def processFDRows (actor pd today : Nat) (postOk insCredOk insFailOk : Nat → Bool) :
    Nat → List FDCalc → LoopOut FDRecord
  | _, [] => (.done 0 0, [], [])
  | i, c :: rest =>
    if 0 < c.interest_amount then
      let postEv : BatchEvent FDRecord :=
        .post c.linked_account_id c.interest_amount (fdMemo c.interest_rate) actor
      if postOk i && insCredOk i then
        let r := fdMkRecord pd today true c
        pushCredit c.interest_amount r [postEv, .insertRec r]
          (processFDRows actor pd today postOk insCredOk insFailOk (i + 1) rest)
      else if insFailOk i then
        let r := fdMkRecord pd today false c
        pushItem r [postEv, .insertRec r]
          (processFDRows actor pd today postOk insCredOk insFailOk (i + 1) rest)
      else (.aborted "audit record insert failed", [], [postEv])
    else processFDRows actor pd today postOk insCredOk insFailOk (i + 1) rest

/-- The savings per-item loop, same structure as the FD loop; the posting
and both INSERTs target `calc.account_id` and carry
`(interest_rate, plan_type)` instead of
`(days_in_period, linked_account_id)`. -/
def processSavRows (actor pd today : Nat) (postOk insCredOk insFailOk : Nat → Bool) :
    Nat → List SavCalc → LoopOut SavRecord
  | _, [] => (.done 0 0, [], [])
  | i, c :: rest =>
    if 0 < c.interest_amount then
      let postEv : BatchEvent SavRecord :=
        .post c.account_id c.interest_amount (savMemo c.plan_type) actor
      if postOk i && insCredOk i then
        let r := savMkRecord pd today true c
        pushCredit c.interest_amount r [postEv, .insertRec r]
          (processSavRows actor pd today postOk insCredOk insFailOk (i + 1) rest)
      else if insFailOk i then
        let r := savMkRecord pd today false c
        pushItem r [postEv, .insertRec r]
          (processSavRows actor pd today postOk insCredOk insFailOk (i + 1) rest)
      else (.aborted "audit record insert failed", [], [postEv])
    else processSavRows actor pd today postOk insCredOk insFailOk (i + 1) rest

/-- Environment of one FD run: the current instant, the
`SYSTEM_ACTOR_EMPLOYEE_ID` configuration (parsed), and the outcome
oracles of every external call the run may issue. -/
structure FDEnv where
  today : Nat
  systemActorCfg : Option Nat
  computeDue : Nat → Option (List FDCalc)
  postOk : Nat → Bool
  insCredOk : Nat → Bool
  insFailOk : Nat → Bool
  sweep : Option MaturitySummary
  commitOk : Bool

/-- Environment of one savings run (no maturity sweep). -/
structure SavEnv where
  today : Nat
  systemActorCfg : Option Nat
  computeDue : Nat → Option (List SavCalc)
  postOk : Nat → Bool
  insCredOk : Nat → Bool
  insFailOk : Nat → Bool
  commitOk : Bool

/-- The success object returned by `processDailyFDInterest`. -/
structure FDRunOk where
  processed : Nat
  totalInterest : Rat
  maturedProcessed : Nat
  principalReturned : Rat
  period : Nat
deriving Repr, DecidableEq

/-- The success object returned by `processDailySavingsInterest`; it has
no maturity fields. -/
structure SavRunOk where
  processed : Nat
  totalInterest : Rat
  period : Nat
deriving Repr, DecidableEq

/-- `{success:true, ...}` or `{success:false, error}` of an FD run. -/
inductive FDResult where
  | ok (s : FDRunOk)
  | err (msg : String)
deriving Repr, DecidableEq

/-- `{success:true, ...}` or `{success:false, error}` of a savings run. -/
inductive SavResult where
  | ok (s : SavRunOk)
  | err (msg : String)
deriving Repr, DecidableEq

/-- Observable outcome of one FD run: the returned object, the audit rows
that survive the transaction (COMMIT kept them, ROLLBACK dropped them),
and the trace of external calls. -/
structure FDOutcome where
  result : FDResult
  committed : List FDRecord
  trace : List (BatchEvent FDRecord)
deriving Repr, DecidableEq

/-- Observable outcome of one savings run. -/
structure SavOutcome where
  result : SavResult
  committed : List SavRecord
  trace : List (BatchEvent SavRecord)
deriving Repr, DecidableEq

/-- `processDailyFDInterest` (src/unnamed/part_000 lines 18-98):
BEGIN; `processDate := today` at the UTC date boundary; query
`calculate_fd_interest_due(processDate)`; run the per-item loop; query
`process_matured_fixed_deposits()`; COMMIT; return
`{success, processed, totalInterest, maturedProcessed,
principalReturned, period}`.  Any uncaught error (due-items query, loop
abort, sweep, COMMIT) reaches the outer catch: ROLLBACK and
`{success:false, error}`. -/
def processDailyFDInterest (e : FDEnv) : FDOutcome :=
  let pd := utcDate e.today
  let actor := systemActorId e.systemActorCfg
  match e.computeDue pd with
  | none => ⟨.err "computeDue failed", [], [.computeDueCall pd, .rollback]⟩
  | some rows =>
    match processFDRows actor pd e.today e.postOk e.insCredOk e.insFailOk 0 rows with
    | (.aborted msg, _, tr) =>
      ⟨.err msg, [], .computeDueCall pd :: tr ++ [.rollback]⟩
    | (.done n t, pending, tr) =>
      match e.sweep with
      | none =>
        ⟨.err "maturity sweep failed", [], .computeDueCall pd :: tr ++ [.sweepCall, .rollback]⟩
      | some m =>
        if e.commitOk then
          ⟨.ok ⟨n, t, m.processed_count, m.total_principal_returned, pd⟩, pending,
            .computeDueCall pd :: tr ++ [.sweepCall, .commit]⟩
        else
          ⟨.err "commit failed", [], .computeDueCall pd :: tr ++ [.sweepCall, .rollback]⟩

/-- `processDailySavingsInterest` (src/unnamed/part_000 lines 107-180):
same shape as the FD run but with no maturity sweep and a success object
`{success, processed, totalInterest, period}`. -/
def processDailySavingsInterest (e : SavEnv) : SavOutcome :=
  let pd := utcDate e.today
  let actor := systemActorId e.systemActorCfg
  match e.computeDue pd with
  | none => ⟨.err "computeDue failed", [], [.computeDueCall pd, .rollback]⟩
  | some rows =>
    match processSavRows actor pd e.today e.postOk e.insCredOk e.insFailOk 0 rows with
    | (.aborted msg, _, tr) =>
      ⟨.err msg, [], .computeDueCall pd :: tr ++ [.rollback]⟩
    | (.done n t, pending, tr) =>
      if e.commitOk then
        ⟨.ok ⟨n, t, pd⟩, pending, .computeDueCall pd :: tr ++ [.commit]⟩
      else
        ⟨.err "commit failed", [], .computeDueCall pd :: tr ++ [.rollback]⟩

/-- Environment read by `startInterestSchedulers`: the three variables
`INTEREST_CRON_DEBUG`, `FD_INTEREST_CRON`, `SAVINGS_INTEREST_CRON`. -/
structure SchedulerEnv where
  debugVar : Option String
  fdCronVar : Option String
  savingsCronVar : Option String
deriving Repr, DecidableEq

/-- `process.env.INTEREST_CRON_DEBUG === '1'`. -/
def debugEnabled (e : SchedulerEnv) : Bool := e.debugVar == some "1"

/-- `startInterestSchedulers` (src/schedulers/interestScheduler.js lines
25-63) reduced to its observable registration effect: the pair
`(FD_CRON, SAVINGS_CRON)` of cron expressions the two triggers are
registered with. -/
def startInterestSchedulers (e : SchedulerEnv) : String × String :=
  let dbg := debugEnabled e
  (if dbg then "*/10 * * * * *" else e.fdCronVar.getD "0 3 * * *",
   if dbg then "*/10 * * * * *" else e.savingsCronVar.getD "30 3 * * *")

/-! ### Characterisation helpers

Small list combinators (kept self-contained) and per-item description
functions used to state what a completed loop produced. -/

/-- Pair each list element with its position, starting at `k`. -/
def idxZip (k : Nat) : List α → List (Nat × α)
  | [] => []
  | a :: as => (k, a) :: idxZip (k + 1) as

/-- Concatenate the images of a list-valued function. -/
def catMap (f : α → List β) : List α → List β
  | [] => []
  | a :: as => f a ++ catMap f as

/-- Sum of a list of rationals. -/
def ratSum : List Rat → Rat
  | [] => 0
  | a :: as => a + ratSum as

/-- An indexed item was credited: positive amount, posting succeeded,
credited-row insert succeeded. -/
def fdCreditedQ (postOk insCredOk : Nat → Bool) (x : Nat × FDCalc) : Bool :=
  decide (0 < x.2.interest_amount) && (postOk x.1 && insCredOk x.1)

/-- Audit rows a completed FD loop writes for the indexed item `x`:
none when the amount is not positive, otherwise exactly one row, credited
precisely when both the posting and the credited-row insert succeeded. -/
def fdItemRecords (pd today : Nat) (postOk insCredOk : Nat → Bool) (x : Nat × FDCalc) :
    List FDRecord :=
  if 0 < x.2.interest_amount then
    [fdMkRecord pd today (postOk x.1 && insCredOk x.1) x.2]
  else []

/-- External calls a completed FD loop makes for the indexed item `x`:
nothing for a non-positive amount, otherwise the posting attempt followed
by the successful insert of that item's row. -/
def fdItemTrace (actor pd today : Nat) (postOk insCredOk : Nat → Bool) (x : Nat × FDCalc) :
    List (BatchEvent FDRecord) :=
  if 0 < x.2.interest_amount then
    [.post x.2.linked_account_id x.2.interest_amount (fdMemo x.2.interest_rate) actor,
     .insertRec (fdMkRecord pd today (postOk x.1 && insCredOk x.1) x.2)]
  else []

/-- Savings analogue of `fdCreditedQ`. -/
def savCreditedQ (postOk insCredOk : Nat → Bool) (x : Nat × SavCalc) : Bool :=
  decide (0 < x.2.interest_amount) && (postOk x.1 && insCredOk x.1)

/-- Savings analogue of `fdItemRecords`. -/
def savItemRecords (pd today : Nat) (postOk insCredOk : Nat → Bool) (x : Nat × SavCalc) :
    List SavRecord :=
  if 0 < x.2.interest_amount then
    [savMkRecord pd today (postOk x.1 && insCredOk x.1) x.2]
  else []

/-- Savings analogue of `fdItemTrace`. -/
def savItemTrace (actor pd today : Nat) (postOk insCredOk : Nat → Bool) (x : Nat × SavCalc) :
    List (BatchEvent SavRecord) :=
  if 0 < x.2.interest_amount then
    [.post x.2.account_id x.2.interest_amount (savMemo x.2.plan_type) actor,
     .insertRec (savMkRecord pd today (postOk x.1 && insCredOk x.1) x.2)]
  else []

/-- The account identifier of a posting event, if the event is one. -/
def postAccount? : BatchEvent ρ → Option Nat
  | .post a _ _ _ => some a
  | _ => none

/-- Accounts of the posting calls of a trace, in order. -/
def postAccounts (l : List (BatchEvent ρ)) : List Nat := l.filterMap postAccount?

/-! ### Concrete run environments used by witnesses and counterexamples -/

/-- FD environment whose first due item's posting is rejected and whose
second succeeds; recorder, sweep and COMMIT all work. -/
def fdEnvA : FDEnv :=
  { today := 0, systemActorCfg := some 7,
    computeDue := fun _ => some [⟨10, 50, 4, 30, 601⟩, ⟨11, 75, 4, 30, 602⟩],
    postOk := fun j => j == 1, insCredOk := fun _ => true, insFailOk := fun _ => true,
    sweep := some ⟨3, 45000⟩, commitOk := true }

/-- Savings environment whose first due item's posting is rejected and
whose second succeeds. -/
def savEnvA : SavEnv :=
  { today := 0, systemActorCfg := some 7,
    computeDue := fun _ => some [⟨20, 30, 3, "Adult"⟩, ⟨21, 45, 3, "Teen"⟩],
    postOk := fun j => j == 1, insCredOk := fun _ => true, insFailOk := fun _ => true,
    commitOk := true }

/-- FD environment where everything succeeds except COMMIT. -/
def fdEnvB : FDEnv :=
  { today := 0, systemActorCfg := some 7,
    computeDue := fun _ => some [⟨10, 50, 4, 30, 601⟩],
    postOk := fun _ => true, insCredOk := fun _ => true, insFailOk := fun _ => true,
    sweep := some ⟨0, 0⟩, commitOk := false }

/-- Savings environment where everything succeeds except COMMIT. -/
def savEnvB : SavEnv :=
  { today := 0, systemActorCfg := some 7,
    computeDue := fun _ => some [⟨20, 30, 3, "Adult"⟩],
    postOk := fun _ => true, insCredOk := fun _ => true, insFailOk := fun _ => true,
    commitOk := false }

/-- FD environment with one zero-amount and one positive due item;
everything succeeds. -/
def fdEnvC : FDEnv :=
  { today := 0, systemActorCfg := some 7,
    computeDue := fun _ => some [⟨10, 0, 4, 30, 601⟩, ⟨11, 75, 4, 30, 602⟩],
    postOk := fun _ => true, insCredOk := fun _ => true, insFailOk := fun _ => true,
    sweep := some ⟨0, 0⟩, commitOk := true }

/-- Savings environment with one zero-amount and one positive due item;
everything succeeds. -/
def savEnvC : SavEnv :=
  { today := 0, systemActorCfg := some 7,
    computeDue := fun _ => some [⟨20, 0, 3, "Adult"⟩, ⟨21, 45, 3, "Teen"⟩],
    postOk := fun _ => true, insCredOk := fun _ => true, insFailOk := fun _ => true,
    commitOk := true }

/-- FD environment where every call succeeds. -/
def fdEnvD : FDEnv :=
  { today := 0, systemActorCfg := some 7,
    computeDue := fun _ => some [⟨10, 50, 4, 30, 601⟩, ⟨11, 75, 4, 30, 602⟩],
    postOk := fun _ => true, insCredOk := fun _ => true, insFailOk := fun _ => true,
    sweep := some ⟨3, 45000⟩, commitOk := true }

/-- Savings environment where every call succeeds. -/
def savEnvD : SavEnv :=
  { today := 0, systemActorCfg := some 7,
    computeDue := fun _ => some [⟨20, 30, 3, "Adult"⟩, ⟨21, 45, 3, "Teen"⟩],
    postOk := fun _ => true, insCredOk := fun _ => true, insFailOk := fun _ => true,
    commitOk := true }

/-- FD environment where the posting succeeds but the credited-row INSERT
fails; the catch handler's failed-row INSERT succeeds, the sweep and
COMMIT succeed. -/
def fdEnvE : FDEnv :=
  { today := 0, systemActorCfg := some 7,
    computeDue := fun _ => some [⟨1, 100, 5, 30, 501⟩],
    postOk := fun _ => true, insCredOk := fun _ => false, insFailOk := fun _ => true,
    sweep := some ⟨0, 0⟩, commitOk := true }

/-- FD environment whose item's posting is rejected and whose catch
handler's failed-row INSERT also fails. -/
def fdEnvF : FDEnv :=
  { today := 0, systemActorCfg := some 7,
    computeDue := fun _ => some [⟨1, 100, 5, 30, 501⟩],
    postOk := fun _ => false, insCredOk := fun _ => true, insFailOk := fun _ => false,
    sweep := some ⟨0, 0⟩, commitOk := true }

/-- Savings environment whose item's posting is rejected and whose catch
handler's failed-row INSERT also fails. -/
def savEnvF : SavEnv :=
  { today := 0, systemActorCfg := some 7,
    computeDue := fun _ => some [⟨20, 30, 3, "Adult"⟩],
    postOk := fun _ => false, insCredOk := fun _ => true, insFailOk := fun _ => false,
    commitOk := true }

/-- FD environment with no configured system actor identity; every call
succeeds. -/
def fdEnvG : FDEnv :=
  { today := 0, systemActorCfg := none,
    computeDue := fun _ => some [⟨1, 100, 5, 30, 501⟩],
    postOk := fun _ => true, insCredOk := fun _ => true, insFailOk := fun _ => true,
    sweep := some ⟨0, 0⟩, commitOk := true }

/-- Savings environment with no configured system actor identity; every
call succeeds. -/
def savEnvG : SavEnv :=
  { today := 0, systemActorCfg := none,
    computeDue := fun _ => some [⟨20, 30, 3, "Adult"⟩],
    postOk := fun _ => true, insCredOk := fun _ => true, insFailOk := fun _ => true,
    commitOk := true }

@[simp] theorem idxZip_nil (k : Nat) : idxZip k ([] : List α) = [] := rfl

@[simp] theorem idxZip_cons (k : Nat) (a : α) (as : List α) :
    idxZip k (a :: as) = (k, a) :: idxZip (k + 1) as := rfl

@[simp] theorem catMap_nil (f : α → List β) : catMap f [] = [] := rfl

@[simp] theorem catMap_cons (f : α → List β) (a : α) (as : List α) :
    catMap f (a :: as) = f a ++ catMap f as := rfl

@[simp] theorem ratSum_nil : ratSum [] = 0 := rfl

@[simp] theorem ratSum_cons (a : Rat) (as : List Rat) :
    ratSum (a :: as) = a + ratSum as := rfl

/-- Membership in a `catMap` image. -/
theorem mem_catMap {f : α → List β} {l : List α} {b : β} :
    b ∈ catMap f l ↔ ∃ a ∈ l, b ∈ f a := by
  induction l with
  | nil => simp
  | cons a as ih => simp [ih]

@[simp] theorem pushItem_exit (r : ρ) (evs : List (BatchEvent ρ)) (o : LoopOut ρ) :
    (pushItem r evs o).1 = o.1 := by
  rcases o with ⟨ex, rs, tr⟩; rfl

@[simp] theorem pushItem_recs (r : ρ) (evs : List (BatchEvent ρ)) (o : LoopOut ρ) :
    (pushItem r evs o).2.1 = r :: o.2.1 := by
  rcases o with ⟨ex, rs, tr⟩; rfl

@[simp] theorem pushItem_trace (r : ρ) (evs : List (BatchEvent ρ)) (o : LoopOut ρ) :
    (pushItem r evs o).2.2 = evs ++ o.2.2 := by
  rcases o with ⟨ex, rs, tr⟩; rfl

@[simp] theorem pushCredit_exit (a : Rat) (r : ρ) (evs : List (BatchEvent ρ)) (o : LoopOut ρ) :
    (pushCredit a r evs o).1 = addCredit o.1 a := by
  rcases o with ⟨ex, rs, tr⟩; rfl

@[simp] theorem pushCredit_recs (a : Rat) (r : ρ) (evs : List (BatchEvent ρ)) (o : LoopOut ρ) :
    (pushCredit a r evs o).2.1 = r :: o.2.1 := by
  rcases o with ⟨ex, rs, tr⟩; rfl

@[simp] theorem pushCredit_trace (a : Rat) (r : ρ) (evs : List (BatchEvent ρ)) (o : LoopOut ρ) :
    (pushCredit a r evs o).2.2 = evs ++ o.2.2 := by
  rcases o with ⟨ex, rs, tr⟩; rfl

/-- Master characterisation of the FD loop when every failed-row insert
succeeds (`insFailOk` identically true): the loop never aborts, and its
count, total, pending rows and trace are exactly the per-item
descriptions concatenated in list order. -/
theorem processFDRows_ok (actor pd today : Nat) (postOk insCredOk insFailOk : Nat → Bool)
    (hf : ∀ j, insFailOk j = true) (k : Nat) (rows : List FDCalc) :
    processFDRows actor pd today postOk insCredOk insFailOk k rows =
      (.done (((idxZip k rows).filter (fdCreditedQ postOk insCredOk)).length)
             (ratSum (((idxZip k rows).filter (fdCreditedQ postOk insCredOk)).map
                (fun x => x.2.interest_amount))),
       catMap (fdItemRecords pd today postOk insCredOk) (idxZip k rows),
       catMap (fdItemTrace actor pd today postOk insCredOk) (idxZip k rows)) := by
  induction rows generalizing k with
  | nil => simp [processFDRows]
  | cons c rest ih =>
    by_cases hpos : 0 < c.interest_amount
    · by_cases hcr : (postOk k && insCredOk k) = true
      · simp [processFDRows, hpos, hcr, ih, pushCredit, addCredit,
              fdItemRecords, fdItemTrace, fdCreditedQ, List.filter]
        try exact Rat.add_comm _ _
      · simp [processFDRows, hpos, hcr, hf k, ih, pushItem,
              fdItemRecords, fdItemTrace, fdCreditedQ, List.filter]
    · simp [processFDRows, hpos, ih, fdItemRecords, fdItemTrace, fdCreditedQ, List.filter]

/-- Master characterisation of the savings loop when every failed-row
insert succeeds, mirroring `processFDRows_ok`. -/
theorem processSavRows_ok (actor pd today : Nat) (postOk insCredOk insFailOk : Nat → Bool)
    (hf : ∀ j, insFailOk j = true) (k : Nat) (rows : List SavCalc) :
    processSavRows actor pd today postOk insCredOk insFailOk k rows =
      (.done (((idxZip k rows).filter (savCreditedQ postOk insCredOk)).length)
             (ratSum (((idxZip k rows).filter (savCreditedQ postOk insCredOk)).map
                (fun x => x.2.interest_amount))),
       catMap (savItemRecords pd today postOk insCredOk) (idxZip k rows),
       catMap (savItemTrace actor pd today postOk insCredOk) (idxZip k rows)) := by
  induction rows generalizing k with
  | nil => simp [processSavRows]
  | cons c rest ih =>
    by_cases hpos : 0 < c.interest_amount
    · by_cases hcr : (postOk k && insCredOk k) = true
      · simp [processSavRows, hpos, hcr, ih, pushCredit, addCredit,
              savItemRecords, savItemTrace, savCreditedQ, List.filter]
        try exact Rat.add_comm _ _
      · simp [processSavRows, hpos, hcr, hf k, ih, pushItem,
              savItemRecords, savItemTrace, savCreditedQ, List.filter]
    · simp [processSavRows, hpos, ih, savItemRecords, savItemTrace, savCreditedQ, List.filter]

/-- If the loop reaches an item whose catch handler's failed-row insert
fails (positive amount, posting or credited-row insert failed, failed-row
insert fails) and no earlier item aborts first, the FD loop aborts. -/
theorem processFDRows_abort (actor pd today : Nat) (postOk insCredOk insFailOk : Nat → Bool)
    (i : Nat) (c : FDCalc)
    (hpos : 0 < c.interest_amount)
    (hcatch : (postOk i && insCredOk i) = false)
    (hfi : insFailOk i = false)
    (k : Nat) (rows : List FDCalc)
    (hk : k ≤ i) (hget : rows.get? (i - k) = some c)
    (hbefore : ∀ j, k ≤ j → j < i → insFailOk j = true) :
    ∃ rs tr, processFDRows actor pd today postOk insCredOk insFailOk k rows =
      (.aborted "audit record insert failed", rs, tr) := by
  induction rows generalizing k with
  | nil => simp [List.get?] at hget
  | cons c' rest ih =>
    rcases Nat.lt_or_ge k i with hlt | hge
    · have hd : i - k = (i - (k + 1)) + 1 := by omega
      rw [hd] at hget
      have hget' : rest.get? (i - (k + 1)) = some c := hget
      have hb' : ∀ j, k + 1 ≤ j → j < i → insFailOk j = true := fun j h1 h2 =>
        hbefore j (Nat.le_of_succ_le h1) h2
      obtain ⟨rs, tr, heq⟩ := ih (k + 1) hlt hget' hb'
      by_cases hp' : 0 < c'.interest_amount
      · by_cases hcr : (postOk k && insCredOk k) = true
        · exact ⟨fdMkRecord pd today true c' :: rs,
            [.post c'.linked_account_id c'.interest_amount (fdMemo c'.interest_rate) actor,
             .insertRec (fdMkRecord pd today true c')] ++ tr, by
            simp [processFDRows, hp', hcr, heq, pushCredit, addCredit]⟩
        · exact ⟨fdMkRecord pd today false c' :: rs,
            [.post c'.linked_account_id c'.interest_amount (fdMemo c'.interest_rate) actor,
             .insertRec (fdMkRecord pd today false c')] ++ tr, by
            simp [processFDRows, hp', hcr, hbefore k (Nat.le_refl k) hlt, heq, pushItem]⟩
      · exact ⟨rs, tr, by simp [processFDRows, hp', heq]⟩
    · have hki : k = i := Nat.le_antisymm hk hge
      subst hki
      simp [Nat.sub_self, List.get?] at hget
      subst hget
      exact ⟨[],
        [.post c'.linked_account_id c'.interest_amount (fdMemo c'.interest_rate) actor], by
        simp [processFDRows, hpos, hcatch, hfi]⟩

/-- Savings analogue of `processFDRows_abort`. -/
theorem processSavRows_abort (actor pd today : Nat) (postOk insCredOk insFailOk : Nat → Bool)
    (i : Nat) (c : SavCalc)
    (hpos : 0 < c.interest_amount)
    (hcatch : (postOk i && insCredOk i) = false)
    (hfi : insFailOk i = false)
    (k : Nat) (rows : List SavCalc)
    (hk : k ≤ i) (hget : rows.get? (i - k) = some c)
    (hbefore : ∀ j, k ≤ j → j < i → insFailOk j = true) :
    ∃ rs tr, processSavRows actor pd today postOk insCredOk insFailOk k rows =
      (.aborted "audit record insert failed", rs, tr) := by
  induction rows generalizing k with
  | nil => simp [List.get?] at hget
  | cons c' rest ih =>
    rcases Nat.lt_or_ge k i with hlt | hge
    · have hd : i - k = (i - (k + 1)) + 1 := by omega
      rw [hd] at hget
      have hget' : rest.get? (i - (k + 1)) = some c := hget
      have hb' : ∀ j, k + 1 ≤ j → j < i → insFailOk j = true := fun j h1 h2 =>
        hbefore j (Nat.le_of_succ_le h1) h2
      obtain ⟨rs, tr, heq⟩ := ih (k + 1) hlt hget' hb'
      by_cases hp' : 0 < c'.interest_amount
      · by_cases hcr : (postOk k && insCredOk k) = true
        · exact ⟨savMkRecord pd today true c' :: rs,
            [.post c'.account_id c'.interest_amount (savMemo c'.plan_type) actor,
             .insertRec (savMkRecord pd today true c')] ++ tr, by
            simp [processSavRows, hp', hcr, heq, pushCredit, addCredit]⟩
        · exact ⟨savMkRecord pd today false c' :: rs,
            [.post c'.account_id c'.interest_amount (savMemo c'.plan_type) actor,
             .insertRec (savMkRecord pd today false c')] ++ tr, by
            simp [processSavRows, hp', hcr, hbefore k (Nat.le_refl k) hlt, heq, pushItem]⟩
      · exact ⟨rs, tr, by simp [processSavRows, hp', heq]⟩
    · have hki : k = i := Nat.le_antisymm hk hge
      subst hki
      simp [Nat.sub_self, List.get?] at hget
      subst hget
      exact ⟨[],
        [.post c'.account_id c'.interest_amount (savMemo c'.plan_type) actor], by
        simp [processSavRows, hpos, hcatch, hfi]⟩

/-- Every event in an FD loop trace (on any path, aborting or not) is
either the posting attempt of some positive-amount row, addressed to that
row's linked account with the memo built from its rate and the run's
actor, or the successful insert of that row's audit record. -/
theorem fd_loop_trace_events {actor pd today : Nat} {postOk insCredOk insFailOk : Nat → Bool}
    {k : Nat} {rows : List FDCalc} {ev : BatchEvent FDRecord}
    (h : ev ∈ (processFDRows actor pd today postOk insCredOk insFailOk k rows).2.2) :
    ∃ c ∈ rows, 0 < c.interest_amount ∧
      (ev = .post c.linked_account_id c.interest_amount (fdMemo c.interest_rate) actor ∨
       ∃ b, ev = .insertRec (fdMkRecord pd today b c)) := by
  induction rows generalizing k with
  | nil => simp [processFDRows] at h
  | cons c rest ih =>
    by_cases hpos : 0 < c.interest_amount
    · by_cases hcr : (postOk k && insCredOk k) = true
      · simp only [processFDRows, hpos, if_true, hcr, pushCredit_trace,
          List.cons_append, List.nil_append] at h
        rcases List.mem_cons.mp h with h | h
        · exact ⟨c, List.mem_cons_self c rest, hpos, Or.inl h⟩
        rcases List.mem_cons.mp h with h | h
        · exact ⟨c, List.mem_cons_self c rest, hpos, Or.inr ⟨true, h⟩⟩
        obtain ⟨c', hc', hp', hev⟩ := ih h
        exact ⟨c', List.mem_cons_of_mem c hc', hp', hev⟩
      · by_cases hfi : insFailOk k = true
        · simp only [processFDRows, hpos, if_true, hcr, if_false, hfi, pushItem_trace,
            Bool.false_eq_true, List.cons_append, List.nil_append] at h
          rcases List.mem_cons.mp h with h | h
          · exact ⟨c, List.mem_cons_self c rest, hpos, Or.inl h⟩
          rcases List.mem_cons.mp h with h | h
          · exact ⟨c, List.mem_cons_self c rest, hpos, Or.inr ⟨false, h⟩⟩
          obtain ⟨c', hc', hp', hev⟩ := ih h
          exact ⟨c', List.mem_cons_of_mem c hc', hp', hev⟩
        · simp only [processFDRows, hpos, if_true, hcr, hfi, Bool.false_eq_true, if_false] at h
          rcases List.mem_cons.mp h with h | h
          · exact ⟨c, List.mem_cons_self c rest, hpos, Or.inl h⟩
          · simp at h
    · simp only [processFDRows, hpos, if_false] at h
      obtain ⟨c', hc', hp', hev⟩ := ih h
      exact ⟨c', List.mem_cons_of_mem c hc', hp', hev⟩

/-- Every pending audit row an FD loop wrote (on any path) is the record
of some positive-amount row of the due list. -/
theorem fd_loop_rec_mem {actor pd today : Nat} {postOk insCredOk insFailOk : Nat → Bool}
    {k : Nat} {rows : List FDCalc} {r : FDRecord}
    (h : r ∈ (processFDRows actor pd today postOk insCredOk insFailOk k rows).2.1) :
    ∃ c ∈ rows, 0 < c.interest_amount ∧ ∃ b, r = fdMkRecord pd today b c := by
  induction rows generalizing k with
  | nil => simp [processFDRows] at h
  | cons c rest ih =>
    by_cases hpos : 0 < c.interest_amount
    · by_cases hcr : (postOk k && insCredOk k) = true
      · simp only [processFDRows, hpos, if_true, hcr, pushCredit_recs] at h
        rcases List.mem_cons.mp h with h | h
        · exact ⟨c, List.mem_cons_self c rest, hpos, true, h⟩
        · obtain ⟨c', hc', hp', hb⟩ := ih h
          exact ⟨c', List.mem_cons_of_mem c hc', hp', hb⟩
      · by_cases hfi : insFailOk k = true
        · simp only [processFDRows, hpos, if_true, hcr, if_false, hfi, pushItem_recs,
            Bool.false_eq_true] at h
          rcases List.mem_cons.mp h with h | h
          · exact ⟨c, List.mem_cons_self c rest, hpos, false, h⟩
          · obtain ⟨c', hc', hp', hb⟩ := ih h
            exact ⟨c', List.mem_cons_of_mem c hc', hp', hb⟩
        · simp only [processFDRows, hpos, if_true, hcr, hfi, Bool.false_eq_true, if_false] at h
          simp at h
    · simp only [processFDRows, hpos, if_false] at h
      obtain ⟨c', hc', hp', hb⟩ := ih h
      exact ⟨c', List.mem_cons_of_mem c hc', hp', hb⟩

/-- Savings analogue of `fd_loop_trace_events`. -/
theorem sav_loop_trace_events {actor pd today : Nat} {postOk insCredOk insFailOk : Nat → Bool}
    {k : Nat} {rows : List SavCalc} {ev : BatchEvent SavRecord}
    (h : ev ∈ (processSavRows actor pd today postOk insCredOk insFailOk k rows).2.2) :
    ∃ c ∈ rows, 0 < c.interest_amount ∧
      (ev = .post c.account_id c.interest_amount (savMemo c.plan_type) actor ∨
       ∃ b, ev = .insertRec (savMkRecord pd today b c)) := by
  induction rows generalizing k with
  | nil => simp [processSavRows] at h
  | cons c rest ih =>
    by_cases hpos : 0 < c.interest_amount
    · by_cases hcr : (postOk k && insCredOk k) = true
      · simp only [processSavRows, hpos, if_true, hcr, pushCredit_trace,
          List.cons_append, List.nil_append] at h
        rcases List.mem_cons.mp h with h | h
        · exact ⟨c, List.mem_cons_self c rest, hpos, Or.inl h⟩
        rcases List.mem_cons.mp h with h | h
        · exact ⟨c, List.mem_cons_self c rest, hpos, Or.inr ⟨true, h⟩⟩
        obtain ⟨c', hc', hp', hev⟩ := ih h
        exact ⟨c', List.mem_cons_of_mem c hc', hp', hev⟩
      · by_cases hfi : insFailOk k = true
        · simp only [processSavRows, hpos, if_true, hcr, if_false, hfi, pushItem_trace,
            Bool.false_eq_true, List.cons_append, List.nil_append] at h
          rcases List.mem_cons.mp h with h | h
          · exact ⟨c, List.mem_cons_self c rest, hpos, Or.inl h⟩
          rcases List.mem_cons.mp h with h | h
          · exact ⟨c, List.mem_cons_self c rest, hpos, Or.inr ⟨false, h⟩⟩
          obtain ⟨c', hc', hp', hev⟩ := ih h
          exact ⟨c', List.mem_cons_of_mem c hc', hp', hev⟩
        · simp only [processSavRows, hpos, if_true, hcr, hfi, Bool.false_eq_true, if_false] at h
          rcases List.mem_cons.mp h with h | h
          · exact ⟨c, List.mem_cons_self c rest, hpos, Or.inl h⟩
          · simp at h
    · simp only [processSavRows, hpos, if_false] at h
      obtain ⟨c', hc', hp', hev⟩ := ih h
      exact ⟨c', List.mem_cons_of_mem c hc', hp', hev⟩

/-- Savings analogue of `fd_loop_rec_mem`. -/
theorem sav_loop_rec_mem {actor pd today : Nat} {postOk insCredOk insFailOk : Nat → Bool}
    {k : Nat} {rows : List SavCalc} {r : SavRecord}
    (h : r ∈ (processSavRows actor pd today postOk insCredOk insFailOk k rows).2.1) :
    ∃ c ∈ rows, 0 < c.interest_amount ∧ ∃ b, r = savMkRecord pd today b c := by
  induction rows generalizing k with
  | nil => simp [processSavRows] at h
  | cons c rest ih =>
    by_cases hpos : 0 < c.interest_amount
    · by_cases hcr : (postOk k && insCredOk k) = true
      · simp only [processSavRows, hpos, if_true, hcr, pushCredit_recs] at h
        rcases List.mem_cons.mp h with h | h
        · exact ⟨c, List.mem_cons_self c rest, hpos, true, h⟩
        · obtain ⟨c', hc', hp', hb⟩ := ih h
          exact ⟨c', List.mem_cons_of_mem c hc', hp', hb⟩
      · by_cases hfi : insFailOk k = true
        · simp only [processSavRows, hpos, if_true, hcr, if_false, hfi, pushItem_recs,
            Bool.false_eq_true] at h
          rcases List.mem_cons.mp h with h | h
          · exact ⟨c, List.mem_cons_self c rest, hpos, false, h⟩
          · obtain ⟨c', hc', hp', hb⟩ := ih h
            exact ⟨c', List.mem_cons_of_mem c hc', hp', hb⟩
        · simp only [processSavRows, hpos, if_true, hcr, hfi, Bool.false_eq_true, if_false] at h
          simp at h
    · simp only [processSavRows, hpos, if_false] at h
      obtain ⟨c', hc', hp', hb⟩ := ih h
      exact ⟨c', List.mem_cons_of_mem c hc', hp', hb⟩

/-- Full description of a successful FD run: when the due-items query
returns `rows`, every failed-row insert succeeds, the maturity sweep
returns `m` and COMMIT succeeds, the run returns the aggregated success
object, commits exactly the per-item audit rows in list order, and its
trace is the due query, the per-item calls, the sweep, then COMMIT. -/
theorem processDailyFDInterest_ok_eq (e : FDEnv) (rows : List FDCalc) (m : MaturitySummary)
    (hrows : e.computeDue (utcDate e.today) = some rows)
    (hf : ∀ j, e.insFailOk j = true)
    (hs : e.sweep = some m) (hc : e.commitOk = true) :
    processDailyFDInterest e =
      ⟨.ok { processed := ((idxZip 0 rows).filter (fdCreditedQ e.postOk e.insCredOk)).length,
             totalInterest := ratSum (((idxZip 0 rows).filter
               (fdCreditedQ e.postOk e.insCredOk)).map (fun x => x.2.interest_amount)),
             maturedProcessed := m.processed_count,
             principalReturned := m.total_principal_returned,
             period := utcDate e.today },
       catMap (fdItemRecords (utcDate e.today) e.today e.postOk e.insCredOk) (idxZip 0 rows),
       .computeDueCall (utcDate e.today) ::
         (catMap (fdItemTrace (systemActorId e.systemActorCfg) (utcDate e.today) e.today
            e.postOk e.insCredOk) (idxZip 0 rows) ++ [.sweepCall, .commit])⟩ := by
  simp only [processDailyFDInterest, hrows]
  rw [processFDRows_ok _ _ _ _ _ _ hf]
  simp [hs, hc]

/-- Savings analogue of `processDailyFDInterest_ok_eq`. -/
theorem processDailySavingsInterest_ok_eq (e : SavEnv) (rows : List SavCalc)
    (hrows : e.computeDue (utcDate e.today) = some rows)
    (hf : ∀ j, e.insFailOk j = true) (hc : e.commitOk = true) :
    processDailySavingsInterest e =
      ⟨.ok { processed := ((idxZip 0 rows).filter (savCreditedQ e.postOk e.insCredOk)).length,
             totalInterest := ratSum (((idxZip 0 rows).filter
               (savCreditedQ e.postOk e.insCredOk)).map (fun x => x.2.interest_amount)),
             period := utcDate e.today },
       catMap (savItemRecords (utcDate e.today) e.today e.postOk e.insCredOk) (idxZip 0 rows),
       .computeDueCall (utcDate e.today) ::
         (catMap (savItemTrace (systemActorId e.systemActorCfg) (utcDate e.today) e.today
            e.postOk e.insCredOk) (idxZip 0 rows) ++ [.commit])⟩ := by
  simp only [processDailySavingsInterest, hrows]
  rw [processSavRows_ok _ _ _ _ _ _ hf]
  simp [hc]

/-- Every FD run either returns a success object or commits nothing. -/
theorem fd_run_cases (e : FDEnv) :
    (∃ s, (processDailyFDInterest e).result = .ok s) ∨
      (processDailyFDInterest e).committed = [] := by
  unfold processDailyFDInterest
  rcases hcd : e.computeDue (utcDate e.today) with _ | rows
  · right; simp [hcd]
  rcases hloop : processFDRows (systemActorId e.systemActorCfg) (utcDate e.today) e.today
      e.postOk e.insCredOk e.insFailOk 0 rows with ⟨ex, pending, tr⟩
  cases ex with
  | aborted msg => right; simp [hcd, hloop]
  | done n t =>
    rcases hs : e.sweep with _ | m
    · right; simp [hcd, hloop, hs]
    · by_cases hc : e.commitOk
      · left
        exact ⟨⟨n, t, m.processed_count, m.total_principal_returned, utcDate e.today⟩,
          by simp [hcd, hloop, hs, hc]⟩
      · right; simp [hcd, hloop, hs, hc]

/-- Every savings run either returns a success object or commits
nothing. -/
theorem sav_run_cases (e : SavEnv) :
    (∃ s, (processDailySavingsInterest e).result = .ok s) ∨
      (processDailySavingsInterest e).committed = [] := by
  unfold processDailySavingsInterest
  rcases hcd : e.computeDue (utcDate e.today) with _ | rows
  · right; simp [hcd]
  rcases hloop : processSavRows (systemActorId e.systemActorCfg) (utcDate e.today) e.today
      e.postOk e.insCredOk e.insFailOk 0 rows with ⟨ex, pending, tr⟩
  cases ex with
  | aborted msg => right; simp [hcd, hloop]
  | done n t =>
    by_cases hc : e.commitOk
    · left
      exact ⟨⟨n, t, utcDate e.today⟩, by simp [hcd, hloop, hc]⟩
    · right; simp [hcd, hloop, hc]

/-- A failed COMMIT makes the FD run return `success=false`. -/
theorem fd_commit_fail_err (e : FDEnv) (hc : e.commitOk = false) :
    ∃ msg, (processDailyFDInterest e).result = .err msg := by
  unfold processDailyFDInterest
  rcases hcd : e.computeDue (utcDate e.today) with _ | rows
  · exact ⟨"computeDue failed", by simp [hcd]⟩
  rcases hloop : processFDRows (systemActorId e.systemActorCfg) (utcDate e.today) e.today
      e.postOk e.insCredOk e.insFailOk 0 rows with ⟨ex, pending, tr⟩
  cases ex with
  | aborted msg => exact ⟨msg, by simp [hcd, hloop]⟩
  | done n t =>
    rcases hs : e.sweep with _ | m
    · exact ⟨"maturity sweep failed", by simp [hcd, hloop, hs]⟩
    · exact ⟨"commit failed", by simp [hcd, hloop, hs, hc]⟩

/-- A failed COMMIT makes the savings run return `success=false`. -/
theorem sav_commit_fail_err (e : SavEnv) (hc : e.commitOk = false) :
    ∃ msg, (processDailySavingsInterest e).result = .err msg := by
  unfold processDailySavingsInterest
  rcases hcd : e.computeDue (utcDate e.today) with _ | rows
  · exact ⟨"computeDue failed", by simp [hcd]⟩
  rcases hloop : processSavRows (systemActorId e.systemActorCfg) (utcDate e.today) e.today
      e.postOk e.insCredOk e.insFailOk 0 rows with ⟨ex, pending, tr⟩
  cases ex with
  | aborted msg => exact ⟨msg, by simp [hcd, hloop]⟩
  | done n t => exact ⟨"commit failed", by simp [hcd, hloop, hc]⟩

/-- A failed due-items query makes the FD run return `success=false`. -/
theorem fd_computeDue_fail_err (e : FDEnv)
    (hcd : e.computeDue (utcDate e.today) = none) :
    (processDailyFDInterest e).result = .err "computeDue failed" := by
  unfold processDailyFDInterest
  simp [hcd]

/-- A failed due-items query makes the savings run return
`success=false`. -/
theorem sav_computeDue_fail_err (e : SavEnv)
    (hcd : e.computeDue (utcDate e.today) = none) :
    (processDailySavingsInterest e).result = .err "computeDue failed" := by
  unfold processDailySavingsInterest
  simp [hcd]

/-- A failed maturity sweep makes the FD run return `success=false`. -/
theorem fd_sweep_fail_err (e : FDEnv) (hs : e.sweep = none) :
    ∃ msg, (processDailyFDInterest e).result = .err msg := by
  unfold processDailyFDInterest
  rcases hcd : e.computeDue (utcDate e.today) with _ | rows
  · exact ⟨"computeDue failed", by simp [hcd]⟩
  rcases hloop : processFDRows (systemActorId e.systemActorCfg) (utcDate e.today) e.today
      e.postOk e.insCredOk e.insFailOk 0 rows with ⟨ex, pending, tr⟩
  cases ex with
  | aborted msg => exact ⟨msg, by simp [hcd, hloop]⟩
  | done n t => exact ⟨"maturity sweep failed", by simp [hcd, hloop, hs]⟩

/-- Every posting call an FD run makes (on any path) uses the run's
system actor, a positive amount, and the linked account and rate memo of
some row of the due list. -/
theorem fd_run_post_mem {e : FDEnv} {a act : Nat} {amt : Rat} {memo : String}
    (h : BatchEvent.post a amt memo act ∈ (processDailyFDInterest e).trace) :
    act = systemActorId e.systemActorCfg ∧ 0 < amt ∧
      ∃ rows, e.computeDue (utcDate e.today) = some rows ∧
        ∃ c ∈ rows, a = c.linked_account_id ∧ amt = c.interest_amount ∧
          memo = fdMemo c.interest_rate := by
  unfold processDailyFDInterest at h
  rcases hcd : e.computeDue (utcDate e.today) with _ | rows
  · simp [hcd] at h
  rcases hloop : processFDRows (systemActorId e.systemActorCfg) (utcDate e.today) e.today
      e.postOk e.insCredOk e.insFailOk 0 rows with ⟨ex, pending, tr⟩
  have htr : BatchEvent.post a amt memo act ∈ tr := by
    cases ex with
    | aborted msg => simp [hcd, hloop] at h; exact h
    | done n t =>
      rcases hs : e.sweep with _ | m
      · simp [hcd, hloop, hs] at h; exact h
      · by_cases hc : e.commitOk <;> simp [hcd, hloop, hs, hc] at h <;> exact h
  have h' : BatchEvent.post a amt memo act ∈
      (processFDRows (systemActorId e.systemActorCfg) (utcDate e.today) e.today
        e.postOk e.insCredOk e.insFailOk 0 rows).2.2 := by
    rw [hloop]; exact htr
  obtain ⟨c, hc, hpos, hev⟩ := fd_loop_trace_events h'
  rcases hev with hev | ⟨b, hev⟩
  · simp only [BatchEvent.post.injEq] at hev
    obtain ⟨h1, h2, h3, h4⟩ := hev
    exact ⟨h4, h2 ▸ hpos, rows, rfl, c, hc, h1, h2, h3⟩
  · simp at hev

/-- Every audit row an FD run successfully inserts (on any path) is the
record of some positive-amount row of the due list, built for the run's
processing date and instant. -/
theorem fd_run_insert_mem {e : FDEnv} {r : FDRecord}
    (h : BatchEvent.insertRec r ∈ (processDailyFDInterest e).trace) :
    ∃ rows, e.computeDue (utcDate e.today) = some rows ∧
      ∃ c ∈ rows, 0 < c.interest_amount ∧
        ∃ b, r = fdMkRecord (utcDate e.today) e.today b c := by
  unfold processDailyFDInterest at h
  rcases hcd : e.computeDue (utcDate e.today) with _ | rows
  · simp [hcd] at h
  rcases hloop : processFDRows (systemActorId e.systemActorCfg) (utcDate e.today) e.today
      e.postOk e.insCredOk e.insFailOk 0 rows with ⟨ex, pending, tr⟩
  have htr : BatchEvent.insertRec r ∈ tr := by
    cases ex with
    | aborted msg => simp [hcd, hloop] at h; exact h
    | done n t =>
      rcases hs : e.sweep with _ | m
      · simp [hcd, hloop, hs] at h; exact h
      · by_cases hc : e.commitOk <;> simp [hcd, hloop, hs, hc] at h <;> exact h
  have h' : BatchEvent.insertRec r ∈
      (processFDRows (systemActorId e.systemActorCfg) (utcDate e.today) e.today
        e.postOk e.insCredOk e.insFailOk 0 rows).2.2 := by
    rw [hloop]; exact htr
  obtain ⟨c, hc, hpos, hev⟩ := fd_loop_trace_events h'
  rcases hev with hev | ⟨b, hev⟩
  · simp at hev
  · simp only [BatchEvent.insertRec.injEq] at hev
    exact ⟨rows, rfl, c, hc, hpos, b, hev⟩

/-- Every audit row an FD run commits is the record of some
positive-amount row of the due list, built for the run's processing date
and instant. -/
theorem fd_run_committed_mem {e : FDEnv} {r : FDRecord}
    (h : r ∈ (processDailyFDInterest e).committed) :
    ∃ rows, e.computeDue (utcDate e.today) = some rows ∧
      ∃ c ∈ rows, 0 < c.interest_amount ∧
        ∃ b, r = fdMkRecord (utcDate e.today) e.today b c := by
  unfold processDailyFDInterest at h
  rcases hcd : e.computeDue (utcDate e.today) with _ | rows
  · simp [hcd] at h
  rcases hloop : processFDRows (systemActorId e.systemActorCfg) (utcDate e.today) e.today
      e.postOk e.insCredOk e.insFailOk 0 rows with ⟨ex, pending, tr⟩
  have hp : r ∈ pending := by
    cases ex with
    | aborted msg => simp [hcd, hloop] at h
    | done n t =>
      rcases hs : e.sweep with _ | m
      · simp [hcd, hloop, hs] at h
      · by_cases hc : e.commitOk
        · simp [hcd, hloop, hs, hc] at h; exact h
        · simp [hcd, hloop, hs, hc] at h
  have h' : r ∈ (processFDRows (systemActorId e.systemActorCfg) (utcDate e.today) e.today
      e.postOk e.insCredOk e.insFailOk 0 rows).2.1 := by
    rw [hloop]; exact hp
  obtain ⟨c, hc, hpos, b, hb⟩ := fd_loop_rec_mem h'
  exact ⟨rows, rfl, c, hc, hpos, b, hb⟩

/-- Savings analogue of `fd_run_post_mem`: the posting targets the row's
own account with the plan-type memo. -/
theorem sav_run_post_mem {e : SavEnv} {a act : Nat} {amt : Rat} {memo : String}
    (h : BatchEvent.post a amt memo act ∈ (processDailySavingsInterest e).trace) :
    act = systemActorId e.systemActorCfg ∧ 0 < amt ∧
      ∃ rows, e.computeDue (utcDate e.today) = some rows ∧
        ∃ c ∈ rows, a = c.account_id ∧ amt = c.interest_amount ∧
          memo = savMemo c.plan_type := by
  unfold processDailySavingsInterest at h
  rcases hcd : e.computeDue (utcDate e.today) with _ | rows
  · simp [hcd] at h
  rcases hloop : processSavRows (systemActorId e.systemActorCfg) (utcDate e.today) e.today
      e.postOk e.insCredOk e.insFailOk 0 rows with ⟨ex, pending, tr⟩
  have htr : BatchEvent.post a amt memo act ∈ tr := by
    cases ex with
    | aborted msg => simp [hcd, hloop] at h; exact h
    | done n t =>
      by_cases hc : e.commitOk <;> simp [hcd, hloop, hc] at h <;> exact h
  have h' : BatchEvent.post a amt memo act ∈
      (processSavRows (systemActorId e.systemActorCfg) (utcDate e.today) e.today
        e.postOk e.insCredOk e.insFailOk 0 rows).2.2 := by
    rw [hloop]; exact htr
  obtain ⟨c, hc, hpos, hev⟩ := sav_loop_trace_events h'
  rcases hev with hev | ⟨b, hev⟩
  · simp only [BatchEvent.post.injEq] at hev
    obtain ⟨h1, h2, h3, h4⟩ := hev
    exact ⟨h4, h2 ▸ hpos, rows, rfl, c, hc, h1, h2, h3⟩
  · simp at hev

/-- Savings analogue of `fd_run_insert_mem`. -/
theorem sav_run_insert_mem {e : SavEnv} {r : SavRecord}
    (h : BatchEvent.insertRec r ∈ (processDailySavingsInterest e).trace) :
    ∃ rows, e.computeDue (utcDate e.today) = some rows ∧
      ∃ c ∈ rows, 0 < c.interest_amount ∧
        ∃ b, r = savMkRecord (utcDate e.today) e.today b c := by
  unfold processDailySavingsInterest at h
  rcases hcd : e.computeDue (utcDate e.today) with _ | rows
  · simp [hcd] at h
  rcases hloop : processSavRows (systemActorId e.systemActorCfg) (utcDate e.today) e.today
      e.postOk e.insCredOk e.insFailOk 0 rows with ⟨ex, pending, tr⟩
  have htr : BatchEvent.insertRec r ∈ tr := by
    cases ex with
    | aborted msg => simp [hcd, hloop] at h; exact h
    | done n t =>
      by_cases hc : e.commitOk <;> simp [hcd, hloop, hc] at h <;> exact h
  have h' : BatchEvent.insertRec r ∈
      (processSavRows (systemActorId e.systemActorCfg) (utcDate e.today) e.today
        e.postOk e.insCredOk e.insFailOk 0 rows).2.2 := by
    rw [hloop]; exact htr
  obtain ⟨c, hc, hpos, hev⟩ := sav_loop_trace_events h'
  rcases hev with hev | ⟨b, hev⟩
  · simp at hev
  · simp only [BatchEvent.insertRec.injEq] at hev
    exact ⟨rows, rfl, c, hc, hpos, b, hev⟩

/-- Savings analogue of `fd_run_committed_mem`. -/
theorem sav_run_committed_mem {e : SavEnv} {r : SavRecord}
    (h : r ∈ (processDailySavingsInterest e).committed) :
    ∃ rows, e.computeDue (utcDate e.today) = some rows ∧
      ∃ c ∈ rows, 0 < c.interest_amount ∧
        ∃ b, r = savMkRecord (utcDate e.today) e.today b c := by
  unfold processDailySavingsInterest at h
  rcases hcd : e.computeDue (utcDate e.today) with _ | rows
  · simp [hcd] at h
  rcases hloop : processSavRows (systemActorId e.systemActorCfg) (utcDate e.today) e.today
      e.postOk e.insCredOk e.insFailOk 0 rows with ⟨ex, pending, tr⟩
  have hp : r ∈ pending := by
    cases ex with
    | aborted msg => simp [hcd, hloop] at h
    | done n t =>
      by_cases hc : e.commitOk
      · simp [hcd, hloop, hc] at h; exact h
      · simp [hcd, hloop, hc] at h
  have h' : r ∈ (processSavRows (systemActorId e.systemActorCfg) (utcDate e.today) e.today
      e.postOk e.insCredOk e.insFailOk 0 rows).2.1 := by
    rw [hloop]; exact hp
  obtain ⟨c, hc, hpos, b, hb⟩ := sav_loop_rec_mem h'
  exact ⟨rows, rfl, c, hc, hpos, b, hb⟩

/-- A savings run never performs a maturity sweep call, on any path. -/
theorem sav_run_no_sweep (e : SavEnv) :
    BatchEvent.sweepCall ∉ (processDailySavingsInterest e).trace := by
  intro h
  unfold processDailySavingsInterest at h
  rcases hcd : e.computeDue (utcDate e.today) with _ | rows
  · simp [hcd] at h
  rcases hloop : processSavRows (systemActorId e.systemActorCfg) (utcDate e.today) e.today
      e.postOk e.insCredOk e.insFailOk 0 rows with ⟨ex, pending, tr⟩
  have htr : BatchEvent.sweepCall ∈ tr := by
    cases ex with
    | aborted msg => simp [hcd, hloop] at h; exact h
    | done n t =>
      by_cases hc : e.commitOk <;> simp [hcd, hloop, hc] at h <;> exact h
  have h' : (BatchEvent.sweepCall : BatchEvent SavRecord) ∈
      (processSavRows (systemActorId e.systemActorCfg) (utcDate e.today) e.today
        e.postOk e.insCredOk e.insFailOk 0 rows).2.2 := by
    rw [hloop]; exact htr
  obtain ⟨c, hc, hpos, hev⟩ := sav_loop_trace_events h'
  rcases hev with hev | ⟨b, hev⟩ <;> simp at hev

/-- Generalised index-membership: the element at position `i` appears in
the indexed list with offset `k`. -/
theorem idxZip_get_mem {rows : List α} :
    ∀ {i k : Nat} {c : α}, rows.get? i = some c → (k + i, c) ∈ idxZip k rows := by
  induction rows with
  | nil => intro i k c h; simp [List.get?] at h
  | cons a as ih =>
    intro i k c h
    cases i with
    | zero =>
      simp [List.get?] at h
      subst h
      simp
    | succ n =>
      simp only [List.get?] at h
      have h2 : k + (n + 1) = (k + 1) + n := by omega
      rw [idxZip_cons, h2]
      exact List.mem_cons_of_mem _ (ih h)

/-- The element at position `i` appears as `(i, c)` in the indexed list
starting at `0`. -/
theorem idxZip_mem_of_get {rows : List α} {i : Nat} {c : α} (h : rows.get? i = some c) :
    (i, c) ∈ idxZip 0 rows := by
  have h0 := idxZip_get_mem (k := 0) h
  simpa using h0

/-- Pointwise-equal Boolean predicates filter identically. -/
theorem filter_ext {p q : α → Bool} (h : ∀ a, p a = q a) :
    ∀ l : List α, l.filter p = l.filter q
  | [] => rfl
  | a :: as => by simp only [List.filter, h a, filter_ext h as]

/-- When every credited-row insert succeeds, an FD item is credited
exactly when it is positive and successfully posted. -/
theorem fdCreditedQ_posted (postOk insCredOk : Nat → Bool)
    (hins : ∀ j, insCredOk j = true) (x : Nat × FDCalc) :
    fdCreditedQ postOk insCredOk x =
      (decide (0 < x.2.interest_amount) && postOk x.1) := by
  simp [fdCreditedQ, hins x.1]

/-- Savings analogue of `fdCreditedQ_posted`. -/
theorem savCreditedQ_posted (postOk insCredOk : Nat → Bool)
    (hins : ∀ j, insCredOk j = true) (x : Nat × SavCalc) :
    savCreditedQ postOk insCredOk x =
      (decide (0 < x.2.interest_amount) && postOk x.1) := by
  simp [savCreditedQ, hins x.1]

@[simp] theorem postAccounts_nil : postAccounts ([] : List (BatchEvent ρ)) = [] := rfl

/-- `postAccounts` distributes over concatenation. -/
theorem postAccounts_append (l1 l2 : List (BatchEvent ρ)) :
    postAccounts (l1 ++ l2) = postAccounts l1 ++ postAccounts l2 := by
  simp [postAccounts]

@[simp] theorem postAccounts_cons_post (a : Nat) (amt : Rat) (m : String) (act : Nat)
    (l : List (BatchEvent ρ)) :
    postAccounts (.post a amt m act :: l) = a :: postAccounts l := rfl

@[simp] theorem postAccounts_cons_insert (r : ρ) (l : List (BatchEvent ρ)) :
    postAccounts (.insertRec r :: l) = postAccounts l := rfl

@[simp] theorem postAccounts_cons_cdc (d : Nat) (l : List (BatchEvent ρ)) :
    postAccounts (.computeDueCall d :: l) = postAccounts l := rfl

@[simp] theorem postAccounts_cons_sweep (l : List (BatchEvent ρ)) :
    postAccounts (.sweepCall :: l) = postAccounts l := rfl

@[simp] theorem postAccounts_cons_commit (l : List (BatchEvent ρ)) :
    postAccounts (.commit :: l) = postAccounts l := rfl

@[simp] theorem postAccounts_cons_rollback (l : List (BatchEvent ρ)) :
    postAccounts (.rollback :: l) = postAccounts l := rfl

/-- The posting calls of a completed FD loop target exactly the linked
accounts of the positive-amount rows, in order. -/
theorem postAccounts_fd_items (actor pd today : Nat) (p ic : Nat → Bool)
    (l : List (Nat × FDCalc)) :
    postAccounts (catMap (fdItemTrace actor pd today p ic) l) =
      (l.filter (fun x => decide (0 < x.2.interest_amount))).map
        (fun x => x.2.linked_account_id) := by
  induction l with
  | nil => rfl
  | cons x xs ih =>
    by_cases hx : 0 < x.2.interest_amount
    · simp [catMap_cons, postAccounts_append, fdItemTrace, hx, List.filter, ih]
    · simp [catMap_cons, postAccounts_append, fdItemTrace, hx, List.filter, ih]

/-- Savings analogue of `postAccounts_fd_items`: the posting calls target
row accounts. -/
theorem postAccounts_sav_items (actor pd today : Nat) (p ic : Nat → Bool)
    (l : List (Nat × SavCalc)) :
    postAccounts (catMap (savItemTrace actor pd today p ic) l) =
      (l.filter (fun x => decide (0 < x.2.interest_amount))).map
        (fun x => x.2.account_id) := by
  induction l with
  | nil => rfl
  | cons x xs ih =>
    by_cases hx : 0 < x.2.interest_amount
    · simp [catMap_cons, postAccounts_append, savItemTrace, hx, List.filter, ih]
    · simp [catMap_cons, postAccounts_append, savItemTrace, hx, List.filter, ih]

/-- The credit accounts of the audit rows a completed FD loop writes are
exactly the linked accounts of the positive-amount rows, in order. -/
theorem recAccounts_fd_items (pd today : Nat) (p ic : Nat → Bool)
    (l : List (Nat × FDCalc)) :
    (catMap (fdItemRecords pd today p ic) l).map
        (fun r => r.credited_to_account_id) =
      (l.filter (fun x => decide (0 < x.2.interest_amount))).map
        (fun x => x.2.linked_account_id) := by
  induction l with
  | nil => rfl
  | cons x xs ih =>
    by_cases hx : 0 < x.2.interest_amount
    · simp [catMap_cons, fdItemRecords, hx, fdMkRecord, List.filter, ih]
    · simp [catMap_cons, fdItemRecords, hx, List.filter, ih]

/-- Savings analogue of `recAccounts_fd_items`. -/
theorem recAccounts_sav_items (pd today : Nat) (p ic : Nat → Bool)
    (l : List (Nat × SavCalc)) :
    (catMap (savItemRecords pd today p ic) l).map (fun r => r.account_id) =
      (l.filter (fun x => decide (0 < x.2.interest_amount))).map
        (fun x => x.2.account_id) := by
  induction l with
  | nil => rfl
  | cons x xs ih =>
    by_cases hx : 0 < x.2.interest_amount
    · simp [catMap_cons, savItemRecords, hx, savMkRecord, List.filter, ih]
    · simp [catMap_cons, savItemRecords, hx, List.filter, ih]

/-- Item processing emits no maturity-sweep event (FD loop). -/
theorem sweep_not_mem_fd_items (actor pd today : Nat) (p ic : Nat → Bool)
    (l : List (Nat × FDCalc)) :
    (BatchEvent.sweepCall : BatchEvent FDRecord) ∉
      catMap (fdItemTrace actor pd today p ic) l := by
  intro h
  obtain ⟨x, hx, hmem⟩ := mem_catMap.mp h
  by_cases hpos : 0 < x.2.interest_amount <;> simp [fdItemTrace, hpos] at hmem

/-- The first external call of every FD run is the due-items query with
the run's UTC processing date. -/
theorem fd_run_trace_head (e : FDEnv) :
    (processDailyFDInterest e).trace.head? =
      some (.computeDueCall (utcDate e.today)) := by
  unfold processDailyFDInterest
  rcases hcd : e.computeDue (utcDate e.today) with _ | rows
  · simp [hcd]
  rcases hloop : processFDRows (systemActorId e.systemActorCfg) (utcDate e.today) e.today
      e.postOk e.insCredOk e.insFailOk 0 rows with ⟨ex, pending, tr⟩
  cases ex with
  | aborted msg => simp [hcd, hloop]
  | done n t =>
    rcases hs : e.sweep with _ | m
    · simp [hcd, hloop, hs]
    · by_cases hc : e.commitOk <;> simp [hcd, hloop, hs, hc]

/-- The first external call of every savings run is the due-items query
with the run's UTC processing date. -/
theorem sav_run_trace_head (e : SavEnv) :
    (processDailySavingsInterest e).trace.head? =
      some (.computeDueCall (utcDate e.today)) := by
  unfold processDailySavingsInterest
  rcases hcd : e.computeDue (utcDate e.today) with _ | rows
  · simp [hcd]
  rcases hloop : processSavRows (systemActorId e.systemActorCfg) (utcDate e.today) e.today
      e.postOk e.insCredOk e.insFailOk 0 rows with ⟨ex, pending, tr⟩
  cases ex with
  | aborted msg => simp [hcd, hloop]
  | done n t => by_cases hc : e.commitOk <;> simp [hcd, hloop, hc]

/-! ### Claim theorems -/

/-- C1: Per-item failure isolation.  In either kind of run (recorder
assumed able to write the catch handler's failed row, sweep and COMMIT
succeeding), a due item with positive amount whose posting call fails
yields exactly one audit row for that item — `fdItemRecords`/
`savItemRecords` at `(i, c)` is the singleton failed record, with
`status = failed` and no `credited_at` — the run does not abort and
still returns `success = true` (`result = ok ...`), all items are still
processed (the committed rows are the per-item rows of the whole list),
and the failed item is excluded from `processed`/`totalInterest` (its
`fdCreditedQ`/`savCreditedQ` is false, and both counters are computed
only over items satisfying that predicate). -/
theorem C1_item_failure_isolated :
    (∀ (e : FDEnv) (rows : List FDCalc) (m : MaturitySummary) (i : Nat) (c : FDCalc),
      e.computeDue (utcDate e.today) = some rows →
      (∀ j, e.insFailOk j = true) →
      e.sweep = some m → e.commitOk = true →
      rows.get? i = some c → 0 < c.interest_amount → e.postOk i = false →
      (i, c) ∈ idxZip 0 rows ∧
      (processDailyFDInterest e).result =
        .ok { processed := ((idxZip 0 rows).filter (fdCreditedQ e.postOk e.insCredOk)).length,
              totalInterest := ratSum (((idxZip 0 rows).filter
                (fdCreditedQ e.postOk e.insCredOk)).map (fun x => x.2.interest_amount)),
              maturedProcessed := m.processed_count,
              principalReturned := m.total_principal_returned,
              period := utcDate e.today } ∧
      (processDailyFDInterest e).committed =
        catMap (fdItemRecords (utcDate e.today) e.today e.postOk e.insCredOk)
          (idxZip 0 rows) ∧
      fdItemRecords (utcDate e.today) e.today e.postOk e.insCredOk (i, c) =
        [fdMkRecord (utcDate e.today) e.today false c] ∧
      (fdMkRecord (utcDate e.today) e.today false c).status = .failed ∧
      (fdMkRecord (utcDate e.today) e.today false c).credited_at = none ∧
      fdCreditedQ e.postOk e.insCredOk (i, c) = false) ∧
    (∀ (e : SavEnv) (rows : List SavCalc) (i : Nat) (c : SavCalc),
      e.computeDue (utcDate e.today) = some rows →
      (∀ j, e.insFailOk j = true) → e.commitOk = true →
      rows.get? i = some c → 0 < c.interest_amount → e.postOk i = false →
      (i, c) ∈ idxZip 0 rows ∧
      (processDailySavingsInterest e).result =
        .ok { processed := ((idxZip 0 rows).filter (savCreditedQ e.postOk e.insCredOk)).length,
              totalInterest := ratSum (((idxZip 0 rows).filter
                (savCreditedQ e.postOk e.insCredOk)).map (fun x => x.2.interest_amount)),
              period := utcDate e.today } ∧
      (processDailySavingsInterest e).committed =
        catMap (savItemRecords (utcDate e.today) e.today e.postOk e.insCredOk)
          (idxZip 0 rows) ∧
      savItemRecords (utcDate e.today) e.today e.postOk e.insCredOk (i, c) =
        [savMkRecord (utcDate e.today) e.today false c] ∧
      (savMkRecord (utcDate e.today) e.today false c).status = .failed ∧
      (savMkRecord (utcDate e.today) e.today false c).credited_at = none ∧
      savCreditedQ e.postOk e.insCredOk (i, c) = false) := by
  constructor
  · intro e rows m i c hrows hf hs hc hget hpos hpost
    have H := processDailyFDInterest_ok_eq e rows m hrows hf hs hc
    refine ⟨idxZip_mem_of_get hget, by rw [H], by rw [H], ?_, ?_, ?_, ?_⟩
    · simp [fdItemRecords, hpos, hpost]
    · simp [fdMkRecord]
    · simp [fdMkRecord]
    · simp [fdCreditedQ, hpost]
  · intro e rows i c hrows hf hc hget hpos hpost
    have H := processDailySavingsInterest_ok_eq e rows hrows hf hc
    refine ⟨idxZip_mem_of_get hget, by rw [H], by rw [H], ?_, ?_, ?_, ?_⟩
    · simp [savItemRecords, hpos, hpost]
    · simp [savMkRecord]
    · simp [savMkRecord]
    · simp [savCreditedQ, hpost]

/-- C1 witness: in `fdEnvA` the first item's posting fails and the second
succeeds; the run returns success with one item credited for 75, and
commits a failed row for the first item and a credited row for the
second. -/
theorem C1_witness :
    (processDailyFDInterest fdEnvA).result =
      .ok { processed := 1, totalInterest := 75, maturedProcessed := 3,
            principalReturned := 45000, period := 0 } ∧
    (processDailyFDInterest fdEnvA).committed =
      [fdMkRecord 0 0 false ⟨10, 50, 4, 30, 601⟩,
       fdMkRecord 0 0 true ⟨11, 75, 4, 30, 602⟩] := by
  have h := C1_item_failure_isolated.1 fdEnvA
    [⟨10, 50, 4, 30, 601⟩, ⟨11, 75, 4, 30, 602⟩] ⟨3, 45000⟩ 0 ⟨10, 50, 4, 30, 601⟩
    rfl (fun _ => rfl) rfl rfl rfl (by decide) rfl
  constructor
  · rw [h.2.1]
    norm_num [fdEnvA, fdCreditedQ, idxZip, ratSum, utcDate]
  · rw [h.2.2.1]
    norm_num [fdEnvA, fdItemRecords, idxZip, catMap, utcDate]
    rfl

/-- C2: Run-fatal atomicity.  In either kind of run, whenever the run
returns `success = false` nothing it wrote survives (`committed = []`),
and each run-fatal trigger — COMMIT failure, due-items query failure,
and (FD) maturity-sweep failure — does make the run return
`success = false`. -/
theorem C2_run_fatal_rollback :
    (∀ (e : FDEnv) (msg : String), (processDailyFDInterest e).result = .err msg →
      (processDailyFDInterest e).committed = []) ∧
    (∀ e : FDEnv, e.commitOk = false →
      ∃ msg, (processDailyFDInterest e).result = .err msg) ∧
    (∀ e : FDEnv, e.computeDue (utcDate e.today) = none →
      (processDailyFDInterest e).result = .err "computeDue failed") ∧
    (∀ e : FDEnv, e.sweep = none →
      ∃ msg, (processDailyFDInterest e).result = .err msg) ∧
    (∀ (e : SavEnv) (msg : String), (processDailySavingsInterest e).result = .err msg →
      (processDailySavingsInterest e).committed = []) ∧
    (∀ e : SavEnv, e.commitOk = false →
      ∃ msg, (processDailySavingsInterest e).result = .err msg) ∧
    (∀ e : SavEnv, e.computeDue (utcDate e.today) = none →
      (processDailySavingsInterest e).result = .err "computeDue failed") := by
  refine ⟨?_, fd_commit_fail_err, fd_computeDue_fail_err, fd_sweep_fail_err,
    ?_, sav_commit_fail_err, sav_computeDue_fail_err⟩
  · intro e msg h
    rcases fd_run_cases e with ⟨s, hok⟩ | hemp
    · rw [hok] at h; simp at h
    · exact hemp
  · intro e msg h
    rcases sav_run_cases e with ⟨s, hok⟩ | hemp
    · rw [hok] at h; simp at h
    · exact hemp

/-- C2 witness: in `fdEnvB` everything works except COMMIT; the run
reports `success = false` with the commit error and commits nothing. -/
theorem C2_witness :
    fdEnvB.commitOk = false ∧
    (processDailyFDInterest fdEnvB).result = .err "commit failed" ∧
    (processDailyFDInterest fdEnvB).committed = [] := by
  refine ⟨rfl, by decide, ?_⟩
  exact C2_run_fatal_rollback.1 fdEnvB "commit failed" (by decide)

/-- C3: Non-positive amounts are skipped entirely.  In either kind of
run, on any path: every posting call carries a positive amount and every
audit row inserted or committed carries a positive amount — so an item
with `amount <= 0` is never posted and never recorded; and on a
completed run the returned counters range only over items whose
`fdCreditedQ`/`savCreditedQ` holds, which requires a positive amount, so
such items contribute nothing to `processed` or `totalInterest`. -/
theorem C3_nonpositive_items_skipped :
    (∀ (e : FDEnv) (a act : Nat) (amt : Rat) (memo : String),
      BatchEvent.post a amt memo act ∈ (processDailyFDInterest e).trace → 0 < amt) ∧
    (∀ (e : FDEnv) (r : FDRecord),
      BatchEvent.insertRec r ∈ (processDailyFDInterest e).trace →
        0 < r.interest_amount) ∧
    (∀ (e : FDEnv) (r : FDRecord),
      r ∈ (processDailyFDInterest e).committed → 0 < r.interest_amount) ∧
    (∀ (e : SavEnv) (a act : Nat) (amt : Rat) (memo : String),
      BatchEvent.post a amt memo act ∈ (processDailySavingsInterest e).trace →
        0 < amt) ∧
    (∀ (e : SavEnv) (r : SavRecord),
      BatchEvent.insertRec r ∈ (processDailySavingsInterest e).trace →
        0 < r.interest_amount) ∧
    (∀ (e : SavEnv) (r : SavRecord),
      r ∈ (processDailySavingsInterest e).committed → 0 < r.interest_amount) ∧
    (∀ (e : FDEnv) (rows : List FDCalc) (m : MaturitySummary),
      e.computeDue (utcDate e.today) = some rows → (∀ j, e.insFailOk j = true) →
      e.sweep = some m → e.commitOk = true →
      (processDailyFDInterest e).result =
        .ok { processed := ((idxZip 0 rows).filter (fdCreditedQ e.postOk e.insCredOk)).length,
              totalInterest := ratSum (((idxZip 0 rows).filter
                (fdCreditedQ e.postOk e.insCredOk)).map (fun x => x.2.interest_amount)),
              maturedProcessed := m.processed_count,
              principalReturned := m.total_principal_returned,
              period := utcDate e.today }) ∧
    (∀ (e : SavEnv) (rows : List SavCalc),
      e.computeDue (utcDate e.today) = some rows → (∀ j, e.insFailOk j = true) →
      e.commitOk = true →
      (processDailySavingsInterest e).result =
        .ok { processed := ((idxZip 0 rows).filter (savCreditedQ e.postOk e.insCredOk)).length,
              totalInterest := ratSum (((idxZip 0 rows).filter
                (savCreditedQ e.postOk e.insCredOk)).map (fun x => x.2.interest_amount)),
              period := utcDate e.today }) := by
  refine ⟨?_, ?_, ?_, ?_, ?_, ?_, ?_, ?_⟩
  · intro e a act amt memo h
    exact (fd_run_post_mem h).2.1
  · intro e r h
    obtain ⟨rows, _, c, _, hpos, b, rfl⟩ := fd_run_insert_mem h
    simpa [fdMkRecord] using hpos
  · intro e r h
    obtain ⟨rows, _, c, _, hpos, b, rfl⟩ := fd_run_committed_mem h
    simpa [fdMkRecord] using hpos
  · intro e a act amt memo h
    exact (sav_run_post_mem h).2.1
  · intro e r h
    obtain ⟨rows, _, c, _, hpos, b, rfl⟩ := sav_run_insert_mem h
    simpa [savMkRecord] using hpos
  · intro e r h
    obtain ⟨rows, _, c, _, hpos, b, rfl⟩ := sav_run_committed_mem h
    simpa [savMkRecord] using hpos
  · intro e rows m hrows hf hs hc
    rw [processDailyFDInterest_ok_eq e rows m hrows hf hs hc]
  · intro e rows hrows hf hc
    rw [processDailySavingsInterest_ok_eq e rows hrows hf hc]

/-- C3 witness: in `fdEnvC`/`savEnvC` a zero-amount item sits next to a
positive one; the positive item's post is in the trace with positive
amount, and the savings run counts only the positive item. -/
theorem C3_witness :
    BatchEvent.post 602 75 (fdMemo 4) 7 ∈ (processDailyFDInterest fdEnvC).trace ∧
    (0 : Rat) < 75 ∧
    (processDailySavingsInterest savEnvC).result =
      .ok { processed := 1, totalInterest := 45, period := 0 } := by
  have hmem : BatchEvent.post 602 75 (fdMemo 4) 7 ∈ (processDailyFDInterest fdEnvC).trace := by
    decide
  refine ⟨hmem, C3_nonpositive_items_skipped.1 fdEnvC 602 7 75 (fdMemo 4) hmem, ?_⟩
  have h := C3_nonpositive_items_skipped.2.2.2.2.2.2.2 savEnvC
    [⟨20, 0, 3, "Adult"⟩, ⟨21, 45, 3, "Teen"⟩] rfl (fun _ => rfl) rfl
  rw [h]
  norm_num [savEnvC, savCreditedQ, idxZip, ratSum, utcDate]

/-- C4: Per-item success postcondition.  In either kind of run with a
fully working recorder, a due item with positive amount whose posting
succeeds yields exactly one audit row — the singleton credited record,
with `status = credited` and `credited_at` set to the run instant — it
satisfies the credited predicate (so it is counted once in `processed`
and its amount accumulated once into `totalInterest`), and since every
credited-row insert succeeds the credited predicate coincides with
"positive and successfully posted", so `totalInterest` is exactly the
sum of the amounts of the successfully posted items. -/
theorem C4_success_postcondition :
    (∀ (e : FDEnv) (rows : List FDCalc) (m : MaturitySummary) (i : Nat) (c : FDCalc),
      e.computeDue (utcDate e.today) = some rows →
      (∀ j, e.insCredOk j = true) → (∀ j, e.insFailOk j = true) →
      e.sweep = some m → e.commitOk = true →
      rows.get? i = some c → 0 < c.interest_amount → e.postOk i = true →
      (i, c) ∈ idxZip 0 rows ∧
      (processDailyFDInterest e).result =
        .ok { processed := ((idxZip 0 rows).filter (fdCreditedQ e.postOk e.insCredOk)).length,
              totalInterest := ratSum (((idxZip 0 rows).filter
                (fdCreditedQ e.postOk e.insCredOk)).map (fun x => x.2.interest_amount)),
              maturedProcessed := m.processed_count,
              principalReturned := m.total_principal_returned,
              period := utcDate e.today } ∧
      (processDailyFDInterest e).committed =
        catMap (fdItemRecords (utcDate e.today) e.today e.postOk e.insCredOk)
          (idxZip 0 rows) ∧
      fdItemRecords (utcDate e.today) e.today e.postOk e.insCredOk (i, c) =
        [fdMkRecord (utcDate e.today) e.today true c] ∧
      (fdMkRecord (utcDate e.today) e.today true c).status = .credited ∧
      (fdMkRecord (utcDate e.today) e.today true c).credited_at = some e.today ∧
      fdCreditedQ e.postOk e.insCredOk (i, c) = true ∧
      (idxZip 0 rows).filter (fdCreditedQ e.postOk e.insCredOk) =
        (idxZip 0 rows).filter
          (fun x => decide (0 < x.2.interest_amount) && e.postOk x.1)) ∧
    (∀ (e : SavEnv) (rows : List SavCalc) (i : Nat) (c : SavCalc),
      e.computeDue (utcDate e.today) = some rows →
      (∀ j, e.insCredOk j = true) → (∀ j, e.insFailOk j = true) →
      e.commitOk = true →
      rows.get? i = some c → 0 < c.interest_amount → e.postOk i = true →
      (i, c) ∈ idxZip 0 rows ∧
      (processDailySavingsInterest e).result =
        .ok { processed := ((idxZip 0 rows).filter (savCreditedQ e.postOk e.insCredOk)).length,
              totalInterest := ratSum (((idxZip 0 rows).filter
                (savCreditedQ e.postOk e.insCredOk)).map (fun x => x.2.interest_amount)),
              period := utcDate e.today } ∧
      (processDailySavingsInterest e).committed =
        catMap (savItemRecords (utcDate e.today) e.today e.postOk e.insCredOk)
          (idxZip 0 rows) ∧
      savItemRecords (utcDate e.today) e.today e.postOk e.insCredOk (i, c) =
        [savMkRecord (utcDate e.today) e.today true c] ∧
      (savMkRecord (utcDate e.today) e.today true c).status = .credited ∧
      (savMkRecord (utcDate e.today) e.today true c).credited_at = some e.today ∧
      savCreditedQ e.postOk e.insCredOk (i, c) = true ∧
      (idxZip 0 rows).filter (savCreditedQ e.postOk e.insCredOk) =
        (idxZip 0 rows).filter
          (fun x => decide (0 < x.2.interest_amount) && e.postOk x.1)) := by
  constructor
  · intro e rows m i c hrows hic hf hs hc hget hpos hpost
    have H := processDailyFDInterest_ok_eq e rows m hrows hf hs hc
    refine ⟨idxZip_mem_of_get hget, by rw [H], by rw [H], ?_, ?_, ?_, ?_, ?_⟩
    · simp [fdItemRecords, hpos, hpost, hic i]
    · simp [fdMkRecord]
    · simp [fdMkRecord]
    · simp [fdCreditedQ, hpos, hpost, hic i]
    · exact filter_ext (fdCreditedQ_posted e.postOk e.insCredOk hic) _
  · intro e rows i c hrows hic hf hc hget hpos hpost
    have H := processDailySavingsInterest_ok_eq e rows hrows hf hc
    refine ⟨idxZip_mem_of_get hget, by rw [H], by rw [H], ?_, ?_, ?_, ?_, ?_⟩
    · simp [savItemRecords, hpos, hpost, hic i]
    · simp [savMkRecord]
    · simp [savMkRecord]
    · simp [savCreditedQ, hpos, hpost, hic i]
    · exact filter_ext (savCreditedQ_posted e.postOk e.insCredOk hic) _

/-- C4 witness: in `fdEnvD`/`savEnvD` both items post successfully; the
runs return `success = true` with both items counted and the exact sums
50+75 and 30+45. -/
theorem C4_witness :
    (processDailyFDInterest fdEnvD).result =
      .ok { processed := 2, totalInterest := 125, maturedProcessed := 3,
            principalReturned := 45000, period := 0 } ∧
    (processDailySavingsInterest savEnvD).result =
      .ok { processed := 2, totalInterest := 75, period := 0 } := by
  have hf := C4_success_postcondition.1 fdEnvD
    [⟨10, 50, 4, 30, 601⟩, ⟨11, 75, 4, 30, 602⟩] ⟨3, 45000⟩ 0 ⟨10, 50, 4, 30, 601⟩
    rfl (fun _ => rfl) (fun _ => rfl) rfl rfl rfl (by decide) rfl
  have hs := C4_success_postcondition.2 savEnvD
    [⟨20, 30, 3, "Adult"⟩, ⟨21, 45, 3, "Teen"⟩] 0 ⟨20, 30, 3, "Adult"⟩
    rfl (fun _ => rfl) (fun _ => rfl) rfl rfl (by decide) rfl
  constructor
  · rw [hf.2.1]
    norm_num [fdEnvD, fdCreditedQ, idxZip, ratSum, utcDate]
  · rw [hs.2.1]
    norm_num [savEnvD, savCreditedQ, idxZip, ratSum, utcDate]

/-- C5 counterexample: in `fdEnvE` the posting of the only item succeeds
but the credited-row INSERT fails (`insCredOk 0 = false`); contrary to
the claim, the run is not aborted: the item-level catch absorbs the
insert failure, writes a `failed` row for an item whose posting
succeeded, and the run returns `success = true` with that row
committed. -/
theorem C5_insert_failure_counterexample :
    fdEnvE.postOk 0 = true ∧ fdEnvE.insCredOk 0 = false ∧
    (processDailyFDInterest fdEnvE).result =
      .ok { processed := 0, totalInterest := 0, maturedProcessed := 0,
            principalReturned := 0, period := 0 } ∧
    (processDailyFDInterest fdEnvE).committed =
      [fdMkRecord 0 0 false ⟨1, 100, 5, 30, 501⟩] :=
  ⟨rfl, rfl, by decide, by decide⟩

/-- C5 amended: only a failure of the catch handler's failed-row INSERT
is run-fatal — it aborts the run with `success = false` and full
rollback (first two conjuncts, both kinds).  A failure of the
credited-row INSERT after a successful posting is instead caught by the
item-level handler: when the subsequent failed-row INSERT succeeds the
item is recorded as `failed`, the run continues and still returns
`success = true` (last two conjuncts, both kinds). -/
theorem C5_insert_failure_amended :
    (∀ (e : FDEnv) (rows : List FDCalc) (i : Nat) (c : FDCalc),
      e.computeDue (utcDate e.today) = some rows →
      rows.get? i = some c → 0 < c.interest_amount →
      (e.postOk i && e.insCredOk i) = false → e.insFailOk i = false →
      (∀ j, j < i → e.insFailOk j = true) →
      (processDailyFDInterest e).result = .err "audit record insert failed" ∧
      (processDailyFDInterest e).committed = []) ∧
    (∀ (e : SavEnv) (rows : List SavCalc) (i : Nat) (c : SavCalc),
      e.computeDue (utcDate e.today) = some rows →
      rows.get? i = some c → 0 < c.interest_amount →
      (e.postOk i && e.insCredOk i) = false → e.insFailOk i = false →
      (∀ j, j < i → e.insFailOk j = true) →
      (processDailySavingsInterest e).result = .err "audit record insert failed" ∧
      (processDailySavingsInterest e).committed = []) ∧
    (∀ (e : FDEnv) (rows : List FDCalc) (m : MaturitySummary) (i : Nat) (c : FDCalc),
      e.computeDue (utcDate e.today) = some rows →
      (∀ j, e.insFailOk j = true) → e.sweep = some m → e.commitOk = true →
      rows.get? i = some c → 0 < c.interest_amount →
      e.postOk i = true → e.insCredOk i = false →
      (∃ s, (processDailyFDInterest e).result = .ok s) ∧
      fdItemRecords (utcDate e.today) e.today e.postOk e.insCredOk (i, c) =
        [fdMkRecord (utcDate e.today) e.today false c]) ∧
    (∀ (e : SavEnv) (rows : List SavCalc) (i : Nat) (c : SavCalc),
      e.computeDue (utcDate e.today) = some rows →
      (∀ j, e.insFailOk j = true) → e.commitOk = true →
      rows.get? i = some c → 0 < c.interest_amount →
      e.postOk i = true → e.insCredOk i = false →
      (∃ s, (processDailySavingsInterest e).result = .ok s) ∧
      savItemRecords (utcDate e.today) e.today e.postOk e.insCredOk (i, c) =
        [savMkRecord (utcDate e.today) e.today false c]) := by
  refine ⟨?_, ?_, ?_, ?_⟩
  · intro e rows i c hrows hget hpos hcatch hfi hb
    obtain ⟨rs, tr, heq⟩ := processFDRows_abort (systemActorId e.systemActorCfg)
      (utcDate e.today) e.today e.postOk e.insCredOk e.insFailOk i c hpos hcatch hfi
      0 rows (Nat.zero_le i) (by simpa using hget) (fun j _ hj => hb j hj)
    constructor
    · unfold processDailyFDInterest
      simp [hrows, heq]
    · unfold processDailyFDInterest
      simp [hrows, heq]
  · intro e rows i c hrows hget hpos hcatch hfi hb
    obtain ⟨rs, tr, heq⟩ := processSavRows_abort (systemActorId e.systemActorCfg)
      (utcDate e.today) e.today e.postOk e.insCredOk e.insFailOk i c hpos hcatch hfi
      0 rows (Nat.zero_le i) (by simpa using hget) (fun j _ hj => hb j hj)
    constructor
    · unfold processDailySavingsInterest
      simp [hrows, heq]
    · unfold processDailySavingsInterest
      simp [hrows, heq]
  · intro e rows m i c hrows hf hs hc hget hpos hpost hins
    have H := processDailyFDInterest_ok_eq e rows m hrows hf hs hc
    exact ⟨⟨_, by rw [H]⟩, by simp [fdItemRecords, hpos, hpost, hins]⟩
  · intro e rows i c hrows hf hc hget hpos hpost hins
    have H := processDailySavingsInterest_ok_eq e rows hrows hf hc
    exact ⟨⟨_, by rw [H]⟩, by simp [savItemRecords, hpos, hpost, hins]⟩

/-- C5 amended witness: in `fdEnvF`/`savEnvF` the catch handler's
failed-row INSERT fails and the run is fatal with nothing committed; in
`fdEnvE` the credited-row INSERT fails after a successful posting and the
run still succeeds. -/
theorem C5_witness :
    (processDailyFDInterest fdEnvF).result = .err "audit record insert failed" ∧
    (processDailyFDInterest fdEnvF).committed = [] ∧
    (processDailySavingsInterest savEnvF).result = .err "audit record insert failed" ∧
    (∃ s, (processDailyFDInterest fdEnvE).result = .ok s) := by
  have hA := C5_insert_failure_amended.1 fdEnvF [⟨1, 100, 5, 30, 501⟩] 0
    ⟨1, 100, 5, 30, 501⟩ rfl rfl (by decide) rfl rfl
    (fun j hj => absurd hj (Nat.not_lt_zero j))
  have hB := C5_insert_failure_amended.2.1 savEnvF [⟨20, 30, 3, "Adult"⟩] 0
    ⟨20, 30, 3, "Adult"⟩ rfl rfl (by decide) rfl rfl
    (fun j hj => absurd hj (Nat.not_lt_zero j))
  have hC := C5_insert_failure_amended.2.2.1 fdEnvE [⟨1, 100, 5, 30, 501⟩] ⟨0, 0⟩ 0
    ⟨1, 100, 5, 30, 501⟩ rfl (fun _ => rfl) rfl rfl rfl (by decide) rfl rfl
  exact ⟨hA.1, hA.2, hB.1, hC.1⟩

/-- C6: FD-only maturity sweep and its placement.  On a completed FD run
the trace is exactly the due-items query, then all per-item calls, then
one `sweepCall`, then COMMIT — so the sweep is called exactly once,
after all due items and before COMMIT (the prefix before
`[sweepCall, commit]` contains no sweep call) — and the returned success
object carries the sweep's `processed_count` and
`total_principal_returned` as `maturedProcessed` and `principalReturned`.
A savings run never performs a sweep call on any path (and its success
object `SavRunOk` has no maturity fields at all). -/
theorem C6_fd_sweep_placement :
    (∀ (e : FDEnv) (rows : List FDCalc) (m : MaturitySummary),
      e.computeDue (utcDate e.today) = some rows → (∀ j, e.insFailOk j = true) →
      e.sweep = some m → e.commitOk = true →
      (processDailyFDInterest e).trace =
        (BatchEvent.computeDueCall (utcDate e.today) ::
          catMap (fdItemTrace (systemActorId e.systemActorCfg) (utcDate e.today) e.today
            e.postOk e.insCredOk) (idxZip 0 rows)) ++ [.sweepCall, .commit] ∧
      BatchEvent.sweepCall ∉
        (BatchEvent.computeDueCall (utcDate e.today) ::
          catMap (fdItemTrace (systemActorId e.systemActorCfg) (utcDate e.today) e.today
            e.postOk e.insCredOk) (idxZip 0 rows)) ∧
      ∃ s, (processDailyFDInterest e).result = .ok s ∧
        s.maturedProcessed = m.processed_count ∧
        s.principalReturned = m.total_principal_returned) ∧
    (∀ e : SavEnv, BatchEvent.sweepCall ∉ (processDailySavingsInterest e).trace) := by
  constructor
  · intro e rows m hrows hf hs hc
    have H := processDailyFDInterest_ok_eq e rows m hrows hf hs hc
    refine ⟨by rw [H]; simp, ?_, ⟨_, by rw [H], rfl, rfl⟩⟩
    intro hmem
    rcases List.mem_cons.mp hmem with h | h
    · simp at h
    · exact sweep_not_mem_fd_items _ _ _ _ _ _ h
  · exact sav_run_no_sweep

/-- C6 witness: the full trace of the all-success FD run `fdEnvD` has
its single sweep call after both items and right before COMMIT, and the
savings run `savEnvD` performs no sweep call. -/
theorem C6_witness :
    (processDailyFDInterest fdEnvD).trace =
      [.computeDueCall 0,
       .post 601 50 (fdMemo 4) 7, .insertRec (fdMkRecord 0 0 true ⟨10, 50, 4, 30, 601⟩),
       .post 602 75 (fdMemo 4) 7, .insertRec (fdMkRecord 0 0 true ⟨11, 75, 4, 30, 602⟩),
       .sweepCall, .commit] ∧
    BatchEvent.sweepCall ∉ (processDailySavingsInterest savEnvD).trace := by
  have h := C6_fd_sweep_placement.1 fdEnvD
    [⟨10, 50, 4, 30, 601⟩, ⟨11, 75, 4, 30, 602⟩] ⟨3, 45000⟩ rfl (fun _ => rfl) rfl rfl
  refine ⟨?_, C6_fd_sweep_placement.2 savEnvD⟩
  rw [h.1]
  norm_num [fdEnvD, fdItemTrace, fdItemRecords, idxZip, catMap, utcDate, systemActorId]

/-- C7: As-of date default.  Every run's first external call is the
due-items query carrying `utcDate today` — the UTC calendar date of the
run's current instant, the model of
`new Date().toISOString().split('T')[0]` — and every audit row the run
inserts (hence every row it commits) carries that same date as its
`calculation_date`, for both kinds. -/
theorem C7_asof_date_default :
    (∀ e : FDEnv, (processDailyFDInterest e).trace.head? =
      some (.computeDueCall (utcDate e.today))) ∧
    (∀ (e : FDEnv) (r : FDRecord), r ∈ (processDailyFDInterest e).committed →
      r.calculation_date = utcDate e.today) ∧
    (∀ (e : FDEnv) (r : FDRecord),
      BatchEvent.insertRec r ∈ (processDailyFDInterest e).trace →
      r.calculation_date = utcDate e.today) ∧
    (∀ e : SavEnv, (processDailySavingsInterest e).trace.head? =
      some (.computeDueCall (utcDate e.today))) ∧
    (∀ (e : SavEnv) (r : SavRecord), r ∈ (processDailySavingsInterest e).committed →
      r.calculation_date = utcDate e.today) ∧
    (∀ (e : SavEnv) (r : SavRecord),
      BatchEvent.insertRec r ∈ (processDailySavingsInterest e).trace →
      r.calculation_date = utcDate e.today) := by
  refine ⟨fd_run_trace_head, ?_, ?_, sav_run_trace_head, ?_, ?_⟩
  · intro e r h
    obtain ⟨rows, _, c, _, _, b, rfl⟩ := fd_run_committed_mem h
    rfl
  · intro e r h
    obtain ⟨rows, _, c, _, _, b, rfl⟩ := fd_run_insert_mem h
    rfl
  · intro e r h
    obtain ⟨rows, _, c, _, _, b, rfl⟩ := sav_run_committed_mem h
    rfl
  · intro e r h
    obtain ⟨rows, _, c, _, _, b, rfl⟩ := sav_run_insert_mem h
    rfl

/-- C7 witness: a committed row of the all-success FD run `fdEnvD`
carries the run's UTC date as its calculation date. -/
theorem C7_witness :
    fdMkRecord 0 0 true ⟨10, 50, 4, 30, 601⟩ ∈ (processDailyFDInterest fdEnvD).committed ∧
    (fdMkRecord 0 0 true ⟨10, 50, 4, 30, 601⟩).calculation_date = utcDate fdEnvD.today := by
  have hmem : fdMkRecord 0 0 true ⟨10, 50, 4, 30, 601⟩ ∈
      (processDailyFDInterest fdEnvD).committed := by decide
  exact ⟨hmem, C7_asof_date_default.2.1 fdEnvD _ hmem⟩

/-- C8 counterexample: the system does not fail fast on a missing actor
identity.  With `SYSTEM_ACTOR_EMPLOYEE_ID` absent (`systemActorCfg =
none`), the FD run `fdEnvG` executes its posting with the implicitly
defaulted actor identity `1` and completes with `success = true` —
refuting the claim that a batch run never executes postings with a
defaulted actor identity. -/
theorem C8_actor_default_counterexample :
    fdEnvG.systemActorCfg = none ∧
    BatchEvent.post 501 100 (fdMemo 5) 1 ∈ (processDailyFDInterest fdEnvG).trace ∧
    ∃ s, (processDailyFDInterest fdEnvG).result = .ok s := by
  have H := processDailyFDInterest_ok_eq fdEnvG [⟨1, 100, 5, 30, 501⟩] ⟨0, 0⟩
    rfl (fun _ => rfl) rfl rfl
  exact ⟨rfl, by decide, ⟨_, by rw [H]⟩⟩

/-- C8 amended: there is no startup fail-fast for the system actor
identity; instead each run computes the actor at run time as
`parseInt(process.env.SYSTEM_ACTOR_EMPLOYEE_ID || '1', 10)`
(`systemActorId`), so when the configuration is missing every posting of
both kinds is executed with the hardcoded fallback actor identity `1`. -/
theorem C8_actor_default_amended :
    (∀ (e : FDEnv) (a act : Nat) (amt : Rat) (memo : String),
      e.systemActorCfg = none →
      BatchEvent.post a amt memo act ∈ (processDailyFDInterest e).trace → act = 1) ∧
    (∀ (e : SavEnv) (a act : Nat) (amt : Rat) (memo : String),
      e.systemActorCfg = none →
      BatchEvent.post a amt memo act ∈ (processDailySavingsInterest e).trace →
        act = 1) := by
  constructor
  · intro e a act amt memo hcfg h
    have := (fd_run_post_mem h).1
    rw [this, hcfg]
    rfl
  · intro e a act amt memo hcfg h
    have := (sav_run_post_mem h).1
    rw [this, hcfg]
    rfl

/-- C8 amended witness: in the savings run `savEnvG` with missing actor
configuration, the posting in the trace carries actor identity `1`. -/
theorem C8_witness :
    savEnvG.systemActorCfg = none ∧
    BatchEvent.post 20 30 (savMemo "Adult") 1 ∈
      (processDailySavingsInterest savEnvG).trace ∧
    (1 : Nat) = 1 := by
  have hmem : BatchEvent.post 20 30 (savMemo "Adult") 1 ∈
      (processDailySavingsInterest savEnvG).trace := by decide
  exact ⟨rfl, hmem,
    C8_actor_default_amended.2 savEnvG 20 1 30 (savMemo "Adult") rfl hmem⟩

/-- C9: Scheduler debug override and defaults.  When
`INTEREST_CRON_DEBUG` is `'1'`, both triggers are registered with
`'*/10 * * * * *'` (fire every 10 seconds), regardless of any configured
expressions.  Otherwise each kind uses its configured cron variable,
defaulting to `'0 3 * * *'` (daily at 03:00) for FD and `'30 3 * * *'`
(daily at 03:30) for savings when unset — the correspondences between
the cron strings and the clock times are those documented in the
source's own comments. -/
theorem C9_scheduler_schedule_selection :
    (∀ e : SchedulerEnv, debugEnabled e = true →
      startInterestSchedulers e = ("*/10 * * * * *", "*/10 * * * * *")) ∧
    (∀ e : SchedulerEnv, debugEnabled e = false →
      startInterestSchedulers e =
        (e.fdCronVar.getD "0 3 * * *", e.savingsCronVar.getD "30 3 * * *")) ∧
    (∀ e : SchedulerEnv, debugEnabled e = false → e.fdCronVar = none →
      e.savingsCronVar = none →
      startInterestSchedulers e = ("0 3 * * *", "30 3 * * *")) ∧
    (∀ (e : SchedulerEnv) (f s : String), debugEnabled e = false →
      e.fdCronVar = some f → e.savingsCronVar = some s →
      startInterestSchedulers e = (f, s)) := by
  refine ⟨?_, ?_, ?_, ?_⟩
  · intro e h
    simp [startInterestSchedulers, h]
  · intro e h
    simp [startInterestSchedulers, h]
  · intro e h h1 h2
    simp [startInterestSchedulers, h, h1, h2]
  · intro e f s h h1 h2
    simp [startInterestSchedulers, h, h1, h2]

/-- C9 witness: with the debug variable set to `'1'` both triggers use
the 10-second cadence even though an FD expression is configured; with
nothing configured the two daily defaults are used. -/
theorem C9_witness :
    debugEnabled ⟨some "1", some "5 4 * * *", none⟩ = true ∧
    startInterestSchedulers ⟨some "1", some "5 4 * * *", none⟩ =
      ("*/10 * * * * *", "*/10 * * * * *") ∧
    debugEnabled ⟨none, none, none⟩ = false ∧
    startInterestSchedulers ⟨none, none, none⟩ = ("0 3 * * *", "30 3 * * *") :=
  ⟨rfl, C9_scheduler_schedule_selection.1 _ rfl, rfl,
    C9_scheduler_schedule_selection.2.2.1 _ rfl rfl rfl⟩

/-- C10: Posting/audit account consistency.  On a completed run of
either kind, the sequence of accounts the posting calls are issued
against and the sequence of credit-account identifiers written into the
committed audit rows are the same list — for FD both are the linked
savings accounts of the positive-amount due items, in order, and for
savings both are the items' own account ids — covering credited and
failed records alike (the committed rows include both outcomes). -/
theorem C10_account_consistency :
    (∀ (e : FDEnv) (rows : List FDCalc) (m : MaturitySummary),
      e.computeDue (utcDate e.today) = some rows → (∀ j, e.insFailOk j = true) →
      e.sweep = some m → e.commitOk = true →
      postAccounts (processDailyFDInterest e).trace =
        ((idxZip 0 rows).filter (fun x => decide (0 < x.2.interest_amount))).map
          (fun x => x.2.linked_account_id) ∧
      (processDailyFDInterest e).committed.map (fun r => r.credited_to_account_id) =
        ((idxZip 0 rows).filter (fun x => decide (0 < x.2.interest_amount))).map
          (fun x => x.2.linked_account_id)) ∧
    (∀ (e : SavEnv) (rows : List SavCalc),
      e.computeDue (utcDate e.today) = some rows → (∀ j, e.insFailOk j = true) →
      e.commitOk = true →
      postAccounts (processDailySavingsInterest e).trace =
        ((idxZip 0 rows).filter (fun x => decide (0 < x.2.interest_amount))).map
          (fun x => x.2.account_id) ∧
      (processDailySavingsInterest e).committed.map (fun r => r.account_id) =
        ((idxZip 0 rows).filter (fun x => decide (0 < x.2.interest_amount))).map
          (fun x => x.2.account_id)) := by
  constructor
  · intro e rows m hrows hf hs hc
    have H := processDailyFDInterest_ok_eq e rows m hrows hf hs hc
    constructor
    · rw [H]
      simp [postAccounts_append, postAccounts_fd_items]
    · rw [H]
      exact recAccounts_fd_items _ _ _ _ _
  · intro e rows hrows hf hc
    have H := processDailySavingsInterest_ok_eq e rows hrows hf hc
    constructor
    · rw [H]
      simp [postAccounts_append, postAccounts_sav_items]
    · rw [H]
      exact recAccounts_sav_items _ _ _ _ _

/-- C10 witness: in `fdEnvA` (first item's posting fails, second
succeeds) both the posting-target list and the committed rows'
credit-account list are `[601, 602]` — equal to each other and to the
items' linked accounts, for a failed and a credited record alike. -/
theorem C10_witness :
    postAccounts (processDailyFDInterest fdEnvA).trace = [601, 602] ∧
    (processDailyFDInterest fdEnvA).committed.map
      (fun r => r.credited_to_account_id) = [601, 602] := by
  have h := C10_account_consistency.1 fdEnvA
    [⟨10, 50, 4, 30, 601⟩, ⟨11, 75, 4, 30, 602⟩] ⟨3, 45000⟩ rfl (fun _ => rfl) rfl rfl
  constructor
  · rw [h.1]
    norm_num [idxZip]
  · rw [h.2]
    norm_num [idxZip]

end Microbanking
